import Mathlib

/-!
# Verification of the daylight-tracker solar time engine

A shallow embedding, over `ℚ`, of the computational core of the
daylight-tracker repository: the per-day sun calculator (`getSunData`),
the twilight band resolver (`resolveZone`, `rotateBands`, `twilightForDay`),
the milestone scanners (`findUpcomingDaylightMilestones` and the
suppression predicate), the solstice/equinox bisection solver
(`findSolsticeEquinoxMoment`), the mirror-date finder (`findOppositeDate`)
and the LRU cache (`LRUCache`).

External collaborators (the SunCalc ephemeris provider and the platform
calendar) are modelled as explicit parameters: an abstract `Provider`
supplies event instants and sun altitudes (in degrees, per the provider
contract of the specification; the source converts SunCalc's radians to
degrees at each call site), and an abstract `sin` function stands for
`Math.sin` in the ecliptic-longitude formula.  Instants are rationals
counting milliseconds since the Unix epoch; `undefined`/`NaN` event
times are `Option.none`.
-/

namespace Daylight

/-! ## JavaScript numeric helpers -/

/-- Truncation toward zero, as ECMAScript's `ToIntegerOrInfinity` does when
a fractional millisecond count is stored into a `Date`. -/
def jsTrunc (q : ℚ) : ℤ :=
  if 0 ≤ q then ⌊q⌋ else ⌈q⌉

/-- The ECMAScript remainder operator `%`: same sign as the dividend. -/
def jsMod (a b : ℚ) : ℚ :=
  a - b * (jsTrunc (a / b) : ℚ)

/-- `String.includes` of ECMAScript: substring containment, via `splitOn`
(the pattern occurs in `s` exactly when splitting on it yields more than
one piece; all patterns used by the source are nonempty). -/
def jsIncludes (s pat : String) : Bool :=
  (s.splitOn pat).length > 1

/-! ## The ephemeris provider (external collaborator)

`SunCalc.getTimes` returns the named event instants for the calendar day
of a reference instant; fields are `none` when the corresponding altitude
crossing does not occur that day.  `SunCalc.getPosition` returns the sun
altitude; the engine always converts it to degrees (or compares it with
zero, where radians and degrees agree in sign), so the abstract provider
reports degrees directly. -/

/-- The event instants returned by `SunCalc.getTimes` (milliseconds). -/
structure SunTimes where
  sunrise : Option ℚ
  sunset : Option ℚ
  solarNoon : ℚ
  dawn : Option ℚ
  dusk : Option ℚ
  nauticalDawn : Option ℚ
  nauticalDusk : Option ℚ
  nightEnd : Option ℚ
  night : Option ℚ
deriving Repr, DecidableEq

/-- The abstract ephemeris provider: `getTimes instant lat lon` and
`altitudeDeg instant lat lon` (sun altitude in degrees). -/
structure Provider where
  getTimes : ℚ → ℚ → ℚ → SunTimes
  altitudeDeg : ℚ → ℚ → ℚ → ℚ

/-! ## SolarDayCalculator: `getSunData` (src/lib/utils.js) -/

/-- The result record of `getSunData`.  `daylight` is in milliseconds;
`sunrise`/`sunset` are `none` where the source stores `null`. -/
structure SunData where
  sunrise : Option ℚ
  sunset : Option ℚ
  solarNoon : ℚ
  daylight : ℚ
  isPolarDay : Bool
  isPolarNight : Bool
deriving Repr, DecidableEq

/-- `getSunData(date, latitude, longitude)`: the source builds the local
noon of the calendar day and asks the provider for that day's times; the
embedding takes that reference noon directly.  If either sunrise or
sunset is `NaN`, the sign of the sun's altitude at solar noon decides
polar day (daylight `86_400_000`) versus polar night (daylight `0`);
otherwise daylight is `sunset - sunrise`.  The returned sunrise/sunset
fields are nulled in both polar branches. -/
def getSunData (p : Provider) (noon lat lon : ℚ) : SunData :=
  let times := p.getTimes noon lat lon
  match times.sunrise, times.sunset with
  | some sr, some ss =>
      { sunrise := some sr, sunset := some ss, solarNoon := times.solarNoon
        daylight := ss - sr, isPolarDay := false, isPolarNight := false }
  | _, _ =>
      let alt := p.altitudeDeg times.solarNoon lat lon
      if 0 < alt then
        { sunrise := none, sunset := none, solarNoon := times.solarNoon
          daylight := 86400000, isPolarDay := true, isPolarNight := false }
      else
        { sunrise := none, sunset := none, solarNoon := times.solarNoon
          daylight := 0, isPolarDay := false, isPolarNight := true }

/-! ## TwilightBandResolver (YearGraph component) -/

/-- One twilight band: a time-of-day interval in fractional hours. -/
structure Band where
  morning : ℚ
  evening : ℚ
deriving Repr, DecidableEq

/-- `toHourRelative`: a `Date` as fractional hours since a reference
midnight; `null`/`NaN` inputs give `null`. -/
def toHourRelative (t : Option ℚ) (refMidnight : ℚ) : Option ℚ :=
  t.map (fun x => (x - refMidnight) / 3600000)

/-- `resolveZone(morningTime, eveningTime, threshold, refMidnight, refNoon,
lat, lng)`: resolves one twilight zone into zero or one bands in natural
solar time, falling back to the noon altitude when events are missing. -/
def resolveZone (p : Provider) (morningTime eveningTime : Option ℚ)
    (threshold refMidnight refNoon lat lng : ℚ) : List Band :=
  let mRaw := toHourRelative morningTime refMidnight
  let eRaw := toHourRelative eveningTime refMidnight
  let noonAlt := p.altitudeDeg refNoon lat lng
  match mRaw, eRaw with
  | some mr, some er =>
      let m := max 0 (min 24 mr)
      let e := max 0 (min 24 er)
      if m < e then [⟨m, e⟩]
      else if threshold < noonAlt then [⟨0, 24⟩] else []
  | some mr, none =>
      if threshold < noonAlt then
        let m := max 0 (min 24 mr)
        if m < 24 then [⟨m, 24⟩] else []
      else []
  | none, some er =>
      if threshold < noonAlt then
        let e := max 0 (min 24 er)
        if 0 < e then [⟨0, e⟩] else []
      else []
  | none, none =>
      if threshold < noonAlt then [⟨0, 24⟩] else []

/-- `rotateBands(bands, shift)`: shift every band by `shift` hours and wrap
around the `[0, 24]` day boundary, splitting a band that crosses an edge
into two fragments and dropping empty fragments. -/
def rotateBands (bands : List Band) (shift : ℚ) : List Band :=
  if |shift| < 1/1000 then bands else
  (bands.flatMap (fun b =>
    let m := b.morning + shift
    let e := b.evening + shift
    if 0 ≤ m ∧ e ≤ 24 then
      [⟨m, e⟩]
    else if m < 0 ∧ e ≤ 24 then
      (if 0 < e then [⟨0, e⟩] else []) ++
      (if m + 24 < 24 then [⟨m + 24, 24⟩] else [])
    else if 0 ≤ m ∧ 24 < e then
      (if m < 24 then [⟨m, 24⟩] else []) ++
      (if 0 < e - 24 then [⟨0, e - 24⟩] else [])
    else
      [⟨0, 24⟩])).filter (fun b => b.morning < b.evening)

/-- Membership of an hour `x` in a band list, reading each band as the
half-open interval `[morning, evening)`. -/
def memBands (x : ℚ) (bands : List Band) : Prop :=
  ∃ b ∈ bands, b.morning ≤ x ∧ x < b.evening

instance (x : ℚ) (bands : List Band) : Decidable (memBands x bands) :=
  inferInstanceAs (Decidable (∃ b ∈ bands, _ ∧ _))

/-- Altitude thresholds of the four zones (degrees, below horizon). -/
def THRESH_SUNRISE : ℚ := -833/1000

/-- Civil twilight threshold. -/
def THRESH_CIVIL : ℚ := -6

/-- Nautical twilight threshold. -/
def THRESH_NAUTICAL : ℚ := -12

/-- Astronomical twilight threshold. -/
def THRESH_ASTRONOMICAL : ℚ := -18

/-- The four per-day band lists, after rotation into the target timezone. -/
structure DayBands where
  daylight : List Band
  civil : List Band
  nautical : List Band
  astronomical : List Band
deriving Repr, DecidableEq

/-- One day of the `twilightData` computation: from the UTC midnight of
the calendar day, build natural solar midnight/noon (offset by
`longitude / 15` hours), resolve each zone from the provider's times at
natural noon, and rotate every band list by
`(naturalMidnight - selectedMidnight) / 3600000` hours.
`selectedMidnight` is the midnight of that day in the selected timezone,
obtained from the external calendar collaborator. -/
def twilightForDay (p : Provider) (utcMidnight lat lng selectedMidnight : ℚ) :
    DayBands :=
  let naturalOffsetMs := lng / 15 * 3600000
  let naturalMidnight := utcMidnight - naturalOffsetMs
  let naturalNoon := naturalMidnight + 12 * 3600000
  let times := p.getTimes naturalNoon lat lng
  let shift := (naturalMidnight - selectedMidnight) / 3600000
  { daylight := rotateBands
      (resolveZone p times.sunrise times.sunset THRESH_SUNRISE
        naturalMidnight naturalNoon lat lng) shift
    civil := rotateBands
      (resolveZone p times.dawn times.dusk THRESH_CIVIL
        naturalMidnight naturalNoon lat lng) shift
    nautical := rotateBands
      (resolveZone p times.nauticalDawn times.nauticalDusk THRESH_NAUTICAL
        naturalMidnight naturalNoon lat lng) shift
    astronomical := rotateBands
      (resolveZone p times.nightEnd times.night THRESH_ASTRONOMICAL
        naturalMidnight naturalNoon lat lng) shift }

/-! ## MilestoneScanner: `findUpcomingDaylightMilestones` (src/lib/utils.js)

Milestone dates are represented by their day offset from the selected
date (the source materializes `currentDate + offset` via `setDate`, a
strictly monotone map from offsets to calendar dates). -/

/-- One milestone: day offset from the selected date plus description. -/
structure Milestone where
  offset : ℤ
  description : String
deriving Repr, DecidableEq

/-- One pre-scanned extreme transition. -/
structure ExtremeEvent where
  type : String
  offset : ℤ
  direction : String
deriving Repr, DecidableEq

/-- `|latitude| > 66.5` (Arctic/Antarctic circle). -/
def isExtremeLatitude (lat : ℚ) : Bool :=
  133/2 < |lat|

/-- Event-type key `polar_night_begin`. -/
def tPolarNightBegin : String := "polar_night_begin"

/-- Event-type key `polar_night_end`. -/
def tPolarNightEnd : String := "polar_night_end"

/-- Event-type key `midnight_sun_begin`. -/
def tMidnightSunBegin : String := "midnight_sun_begin"

/-- Event-type key `midnight_sun_end`. -/
def tMidnightSunEnd : String := "midnight_sun_end"

/-- Direction tag `increasing`. -/
def dirIncreasing : String := "increasing"

/-- Direction tag `decreasing`. -/
def dirDecreasing : String := "decreasing"

/-- Milestone text `Polar night begins (0h daylight)`. -/
def descPolarNightBegins : String := "Polar night begins (0h daylight)"

/-- Milestone text `Polar night ends`. -/
def descPolarNightEnds : String := "Polar night ends"

/-- Milestone text `Midnight sun begins (24h daylight)`. -/
def descMidnightSunBegins : String := "Midnight sun begins (24h daylight)"

/-- Milestone text `Midnight sun ends`. -/
def descMidnightSunEnds : String := "Midnight sun ends"

/-- Milestone text `More than {h}h of daylight` for an hour `h`. -/
def descMoreThan (h : ℕ) : String :=
  "More than " ++ toString h ++ "h of daylight"

/-- Milestone text `Less than {h}h of daylight`. -/
def descLessThan (h : ℕ) : String :=
  "Less than " ++ toString h ++ "h of daylight"

/-- Dedup key `above:{h}`. -/
def keyAbove (h : ℕ) : String :=
  "above:" ++ toString h

/-- Dedup key `below:{h}`. -/
def keyBelow (h : ℕ) : String :=
  "below:" ++ toString h

/-- `getDataAtOffset`: wrap `currentDOY + offset` past the year ends and
index `yearData` (out-of-range indexes give `null`). -/
def getDataAtOffset (yearData : List SunData) (currentDOY offset : ℤ) :
    Option SunData :=
  let len : ℤ := yearData.length
  let doy := currentDOY + offset
  let doy := if len < doy then doy - len else doy
  let doy := if doy < 1 then doy + len else doy
  if doy < 1 then none else yearData[(doy - 1).toNat]?

/-- Daylight in fractional hours for a day record. -/
def hoursOf (d : SunData) : ℚ :=
  d.daylight / 3600000

/-- The extreme transitions detected between a consecutive day pair, in
source order: for each of the four kinds, a flag-based transition, or
else (`else if`) a threshold crossing. -/
def extremeEventsAt (PNT MST : ℚ) (offset : ℤ) (prevData currData : SunData) :
    List ExtremeEvent :=
  let prevHours := hoursOf prevData
  let currHours := hoursOf currData
  (if !prevData.isPolarNight && currData.isPolarNight then
    [⟨tPolarNightBegin, offset, dirDecreasing⟩]
  else if PNT ≤ prevHours ∧ currHours < PNT then
    [⟨tPolarNightBegin, offset, dirDecreasing⟩]
  else []) ++
  (if prevData.isPolarNight && !currData.isPolarNight then
    [⟨tPolarNightEnd, offset, dirIncreasing⟩]
  else if prevHours < PNT ∧ PNT ≤ currHours then
    [⟨tPolarNightEnd, offset, dirIncreasing⟩]
  else []) ++
  (if !prevData.isPolarDay && currData.isPolarDay then
    [⟨tMidnightSunBegin, offset, dirIncreasing⟩]
  else if prevHours ≤ MST ∧ MST < currHours then
    [⟨tMidnightSunBegin, offset, dirIncreasing⟩]
  else []) ++
  (if prevData.isPolarDay && !currData.isPolarDay then
    [⟨tMidnightSunEnd, offset, dirDecreasing⟩]
  else if MST < prevHours ∧ currHours ≤ MST then
    [⟨tMidnightSunEnd, offset, dirDecreasing⟩]
  else [])

/-- FIRST PASS: pre-scan the whole year for extreme events, then sort by
offset (`Array.prototype.sort` is stable). -/
def scanExtremeEvents (yearData : List SunData) (currentDOY : ℤ)
    (PNT MST : ℚ) : List ExtremeEvent :=
  ((List.range yearData.length).flatMap (fun o =>
    let offset : ℤ := o
    match getDataAtOffset yearData currentDOY (offset - 1),
          getDataAtOffset yearData currentDOY offset with
    | some prevData, some currData =>
        extremeEventsAt PNT MST offset prevData currData
    | _, _ => [])).mergeSort (fun a b => a.offset ≤ b.offset)

/-- `shouldSuppressHourCrossing(offset, isDecreasing)`: an ordinary hour
crossing is suppressed on or up to `W` days before a same-direction
extreme onset, and on or up to `7` days after a same-direction extreme
conclusion. -/
def shouldSuppressHourCrossing (extremeEvents : List ExtremeEvent) (W : ℤ)
    (offset : ℤ) (isDecreasing : Bool) : Bool :=
  extremeEvents.any (fun event =>
    let daysUntilExtreme := event.offset - offset
    let daysSinceExtreme := offset - event.offset
    (decide (0 ≤ daysUntilExtreme) && decide (daysUntilExtreme ≤ W) &&
      ((isDecreasing && event.type == tPolarNightBegin) ||
       (!isDecreasing && event.type == tMidnightSunBegin))) ||
    (decide (0 ≤ daysSinceExtreme) && decide (daysSinceExtreme ≤ 7) &&
      ((isDecreasing && event.type == tMidnightSunEnd) ||
       (!isDecreasing && event.type == tPolarNightEnd))))

/-- The accumulating state of the second pass: the milestone list and the
`foundCrossings` dedup set (a JS `Set` of string keys). -/
structure Pass2State where
  milestones : List Milestone
  foundCrossings : List String
deriving Repr, DecidableEq

/-- Add a milestone under a dedup key, if the key is not yet present and
the guard holds (the source adds the key inside all its guards). -/
def pushKeyed (st : Pass2State) (key : String) (guard : Bool)
    (m : Milestone) : Pass2State :=
  if !st.foundCrossings.contains key && guard then
    { milestones := st.milestones ++ [m]
      foundCrossings := st.foundCrossings ++ [key] }
  else st

/-- The extreme-event milestones of one day of the second pass.  These
are pushed without consulting the suppression predicate ("these are never
suppressed"): flag-based detection or (`||`) threshold crossings, with
per-kind dedup through `foundCrossings`. -/
def stepExtremes (PNT MST : ℚ) (offset : ℤ) (prevData currData : SunData)
    (st : Pass2State) : Pass2State :=
  let prevHours := hoursOf prevData
  let currHours := hoursOf currData
  let polarNightBegins := (!prevData.isPolarNight && currData.isPolarNight) ||
    decide (PNT ≤ prevHours ∧ currHours < PNT)
  let st := pushKeyed st tPolarNightBegin polarNightBegins
    ⟨offset, descPolarNightBegins⟩
  let polarNightEnds := (prevData.isPolarNight && !currData.isPolarNight) ||
    decide (prevHours < PNT ∧ PNT ≤ currHours)
  let st := pushKeyed st tPolarNightEnd polarNightEnds
    ⟨offset, descPolarNightEnds⟩
  let midnightSunBegins := (!prevData.isPolarDay && currData.isPolarDay) ||
    decide (prevHours ≤ MST ∧ MST < currHours)
  let st := pushKeyed st tMidnightSunBegin midnightSunBegins
    ⟨offset, descMidnightSunBegins⟩
  let midnightSunEnds := (prevData.isPolarDay && !currData.isPolarDay) ||
    decide (MST < prevHours ∧ currHours ≤ MST)
  pushKeyed st tMidnightSunEnd midnightSunEnds
    ⟨offset, descMidnightSunEnds⟩

/-- The integer-hour crossings of one day of the second pass, `h` from 1
to 23; a crossing is kept only when its key is new and the suppression
predicate rejects it. -/
def stepHours (suppress : ℤ → Bool → Bool) (offset : ℤ)
    (prevData currData : SunData) (st : Pass2State) : Pass2State :=
  let prevHours := hoursOf prevData
  let currHours := hoursOf currData
  (List.range' 1 23).foldl
    (fun st (h : ℕ) =>
      let st :=
        if prevHours < (h : ℚ) ∧ (h : ℚ) ≤ currHours then
          pushKeyed st (keyAbove h) (!suppress offset false)
            ⟨offset, descMoreThan h⟩
        else st
      if (h : ℚ) ≤ prevHours ∧ currHours < (h : ℚ) then
        pushKeyed st (keyBelow h) (!suppress offset true)
          ⟨offset, descLessThan h⟩
      else st)
    st

/-- One iteration of the second pass: skip if either neighbour day is
missing, otherwise extreme events first, then hour crossings. -/
def stepDay (yearData : List SunData) (currentDOY : ℤ) (PNT MST : ℚ)
    (suppress : ℤ → Bool → Bool) (offset : ℤ) (st : Pass2State) :
    Pass2State :=
  match getDataAtOffset yearData currentDOY (offset - 1),
        getDataAtOffset yearData currentDOY offset with
  | some prevData, some currData =>
      stepHours suppress offset prevData currData
        (stepExtremes PNT MST offset prevData currData st)
  | _, _ => st

/-- SECOND PASS: walk offsets from 0 while `offset < yearData.length` and
`milestones.length < count`, both checked at the loop head (so all of a
day's crossings are appended even when the bound is reached mid-day). -/
def pass2go (yearData : List SunData) (currentDOY : ℤ) (PNT MST : ℚ)
    (suppress : ℤ → Bool → Bool) (count : ℕ) :
    ℕ → ℕ → Pass2State → Pass2State
  | _, 0, st => st
  | offset, fuel + 1, st =>
      if st.milestones.length < count then
        pass2go yearData currentDOY PNT MST suppress count (offset + 1) fuel
          (stepDay yearData currentDOY PNT MST suppress offset st)
      else st

/-- THIRD PASS helper `addMissingExtremeEvent(existingType, missingType,
missingDesc)`: when a milestone mentioning `existingType` is present and
none mentioning `missingType` is, backfill the paired event from the
pre-scanned list.  (`missingType` is an underscored event key, compared
by `includes` against lower-cased human-readable descriptions.) -/
def addMissingExtremeEvent (extremeEvents : List ExtremeEvent)
    (milestones : List Milestone)
    (existingType missingType missingDesc : String) : List Milestone :=
  let hasExisting :=
    milestones.any (fun m => jsIncludes m.description.toLower existingType)
  let hasMissing :=
    milestones.any (fun m => jsIncludes m.description.toLower missingType)
  if hasExisting && !hasMissing then
    let sp := " "
    let us := "_"
    match extremeEvents.find? (fun e => e.type == missingType.replace sp us) with
    | some event => milestones ++ [⟨event.offset, missingDesc⟩]
    | none => milestones
  else milestones

/-- Search text `Polar night begins` of the extreme-latitude backfill. -/
def lCapPnb : String := "Polar night begins"

/-- Search text `Midnight sun begins` of the extreme-latitude backfill. -/
def lCapMsb : String := "Midnight sun begins"

/-- `findUpcomingDaylightMilestones(currentDate, yearData, latitude,
count)`: latitude-dependent thresholds, the extreme-event pre-scan, the
bounded milestone loop, the paired-event backfill passes and the final
sort by date (here: by day offset). -/
def findUpcomingDaylightMilestones (yearData : List SunData)
    (currentDOY : ℤ) (lat : ℚ) (count : ℕ) : List Milestone :=
  let extreme := isExtremeLatitude lat
  let PNT : ℚ := if extreme then 1/2 else 1/10
  let MST : ℚ := 239/10
  let W : ℤ := if extreme then 60 else 30
  let extremeEvents := scanExtremeEvents yearData currentDOY PNT MST
  let suppress := shouldSuppressHourCrossing extremeEvents W
  let st := pass2go yearData currentDOY PNT MST suppress count 0
    yearData.length ⟨[], []⟩
  let lMsb := "midnight sun begins"
  let lMse := "midnight sun ends"
  let lPnb := "polar night begins"
  let lPne := "polar night ends"
  let ms := addMissingExtremeEvent extremeEvents st.milestones
    lMsb tMidnightSunEnd descMidnightSunEnds
  let ms := addMissingExtremeEvent extremeEvents ms
    lMse tMidnightSunBegin descMidnightSunBegins
  let ms := addMissingExtremeEvent extremeEvents ms
    lPnb tPolarNightEnd descPolarNightEnds
  let ms := addMissingExtremeEvent extremeEvents ms
    lPne tPolarNightBegin descPolarNightBegins
  let ms :=
    if extreme then
      let hasMidnightSunEnd :=
        ms.any (fun m => jsIncludes m.description descMidnightSunEnds)
      let hasPolarNightBegin :=
        ms.any (fun m => jsIncludes m.description lCapPnb)
      let hasPolarNightEnd :=
        ms.any (fun m => jsIncludes m.description descPolarNightEnds)
      let hasMidnightSunBegin :=
        ms.any (fun m => jsIncludes m.description lCapMsb)
      let ms :=
        if hasMidnightSunEnd && !hasPolarNightBegin then
          match extremeEvents.find? (fun e => e.type == tPolarNightBegin) with
          | some event => ms ++ [⟨event.offset, descPolarNightBegins⟩]
          | none => ms
        else ms
      if hasPolarNightEnd && !hasMidnightSunBegin then
        match extremeEvents.find? (fun e => e.type == tMidnightSunBegin) with
        | some event => ms ++ [⟨event.offset, descMidnightSunBegins⟩]
        | none => ms
      else ms
    else ms
  ms.mergeSort (fun a b => a.offset ≤ b.offset)

/-! ## ResultCache: the LRU cache (shared cache module)

A JavaScript `Map` preserves insertion order and never holds two entries
with the same key; it is embedded as an association list whose head is
the oldest (least recently inserted) entry. -/

/-- The LRU cache state: capacity and the ordered entry list. -/
structure LRUCache where
  max : ℕ
  map : List (ℕ × ℕ)
deriving Repr, DecidableEq

namespace LRUCache

/-- The keys currently stored, in insertion order. -/
def keys (c : LRUCache) : List ℕ :=
  c.map.map Prod.fst

/-- `has(key)`. -/
def has (c : LRUCache) (k : ℕ) : Bool :=
  (c.keys).contains k

/-- `Map.get`: the value stored under `k`, if present. -/
def lookup (c : LRUCache) (k : ℕ) : Option ℕ :=
  (c.map.find? (fun e => e.1 == k)).map Prod.snd

/-- `Map.delete(key)`: remove the entry with key `k` (a `Map` holds at
most one). -/
def mapDelete (m : List (ℕ × ℕ)) (k : ℕ) : List (ℕ × ℕ) :=
  m.filter (fun e => e.1 ≠ k)

/-- `get(key)`: the returned value, `undefined` (`none`) on a miss. -/
def getVal (c : LRUCache) (k : ℕ) : Option ℕ :=
  if c.has k then c.lookup k else none

/-- `get(key)`: the state after the call — on a hit the entry is deleted
and re-inserted at the end (most recently used); a miss changes nothing. -/
def getState (c : LRUCache) (k : ℕ) : LRUCache :=
  if c.has k then
    match c.lookup k with
    | some v => { c with map := mapDelete c.map k ++ [(k, v)] }
    | none => c
  else c

/-- `set(key, value)`: delete an existing entry with the same key, or —
when at capacity — evict the first (oldest) entry, then append the new
entry at the end.  `Map.keys().next().value` on an empty map is
`undefined` and deleting it is a no-op. -/
def set (c : LRUCache) (k v : ℕ) : LRUCache :=
  if c.has k then
    { c with map := mapDelete c.map k ++ [(k, v)] }
  else if c.max ≤ c.map.length then
    { c with map := c.map.tail ++ [(k, v)] }
  else
    { c with map := c.map ++ [(k, v)] }

/-- The `size` accessor. -/
def size (c : LRUCache) : ℕ :=
  c.map.length

end LRUCache

/-- One cache operation of a client session. -/
inductive CacheOp where
  | get (k : ℕ)
  | set (k v : ℕ)
deriving Repr, DecidableEq

/-- Apply one operation to a cache state (the `get` result value is
observed through `LRUCache.getVal`). -/
def stepCache (c : LRUCache) : CacheOp → LRUCache
  | .get k => c.getState k
  | .set k v => c.set k v

/-- Run a sequence of operations on a fresh cache of capacity `cap`. -/
def runCache (cap : ℕ) (ops : List CacheOp) : LRUCache :=
  ops.foldl stepCache ⟨cap, []⟩

/-! ## SolsticeEquinoxSolver (src/lib/utils.js)

`Math.sin` is a platform transcendental; the embedding abstracts it as a
rational-valued parameter `sin`.  `Math.PI` is the IEEE-754 double
closest to π, an exact rational. -/

/-- The double value of `Math.PI`. -/
def jsPI : ℚ := 884279719003555 / 281474976710656

/-- Days since the Unix epoch of a proleptic-Gregorian civil date
(models the ECMAScript `Date.UTC` day computation; the solver only ever
passes valid days 15–27 of a valid month). -/
def daysFromCivil (y m d : ℤ) : ℤ :=
  let y' := if m ≤ 2 then y - 1 else y
  let era := Int.fdiv y' 400
  let yoe := y' - era * 400
  let mp := if 2 < m then m - 3 else m + 9
  let doy := (153 * mp + 2) / 5 + d - 1
  let doe := yoe * 365 + yoe / 4 - yoe / 100 + doy
  era * 146097 + doe - 719468

/-- `Date.UTC(year, monthIndex, day)` in milliseconds. -/
def dateUTC (year monthIndex day : ℤ) : ℤ :=
  daysFromCivil year (monthIndex + 1) day * 86400000

/-- `julianDate(date)`: Julian date of an epoch-millisecond instant. -/
def julianDate (ms : ℚ) : ℚ :=
  ms / 86400000 + 2440587.5

/-- `sunEclipticLongitude(jd)`: the simplified Meeus formula — mean
longitude plus a two-harmonic equation of center, normalized to
`[0, 360)`. -/
def sunEclipticLongitude (sin : ℚ → ℚ) (jd : ℚ) : ℚ :=
  let n := jd - 2451545.0
  let L := 280.466 + 0.9856474 * n
  let g := (357.528 + 0.9856003 * n) * (jsPI / 180)
  let lambda := L + 1.915 * sin g + 0.020 * sin (2 * g)
  jsMod (jsMod lambda 360 + 360) 360

/-- The signed angular difference wrapped into `[-180, 180]`, exactly as
the solver's two conditional corrections do. -/
def wrap360 (d : ℚ) : ℚ :=
  let d := if 180 < d then d - 360 else d
  if d < -180 then d + 360 else d

/-- The solver's residual at an instant: the wrapped difference between
the sun's ecliptic longitude there and the target longitude. -/
def wrapDiff (sin : ℚ → ℚ) (target : ℚ) (t : ℤ) : ℚ :=
  wrap360 (sunEclipticLongitude sin (julianDate (t : ℚ)) - target)

/-- The bisection loop of `findSolsticeEquinoxMoment`: up to 30 steps;
early return once the residual is below `1e-4` degrees, else narrow the
bracket by the residual's sign; after the final step, the midpoint of
the remaining bracket is the best estimate.  The `Date` constructor
truncates fractional milliseconds toward zero. -/
def bisectGo (sin : ℚ → ℚ) (target : ℚ) : ℕ → ℤ → ℤ → ℤ
  | 0, low, high => jsTrunc ((((low + high : ℤ) : ℚ)) / 2)
  | n + 1, low, high =>
      let mid := jsTrunc ((((low + high : ℤ) : ℚ)) / 2)
      let diff := wrapDiff sin target mid
      if |diff| < 1/10000 then mid
      else if diff < 0 then bisectGo sin target n mid high
      else bisectGo sin target n low mid

/-- The nominal calendar month (0-based) of each event. -/
def approxMonthOf (target : ℕ) : ℤ :=
  ([2, 5, 8, 11].getD (target / 90) 0 : ℕ)

/-- The nominal calendar day of each event. -/
def approxDayOf (target : ℕ) : ℤ :=
  ([20, 21, 22, 21].getD (target / 90) 0 : ℕ)

/-- `findSolsticeEquinoxMoment(year, targetLongitude)`: bisect over the
window of ±5 days around the nominal calendar date of the event. -/
def findSolsticeEquinoxMoment (sin : ℚ → ℚ) (year : ℤ) (target : ℕ) : ℤ :=
  let low := dateUTC year (approxMonthOf target) (approxDayOf target - 5)
  let high := dateUTC year (approxMonthOf target) (approxDayOf target + 5)
  bisectGo sin (target : ℚ) 30 low high

/-! ## MirrorDateFinder: `findOppositeDate` (src/lib/utils.js) -/

/-- `computeYearData(latitude, year)`: one `getSunData` result per day of
the year, longitude defaulted to `0`.  The source builds the local noon
of each day-of-year; the embedding takes that list of reference noons. -/
def computeYearData (p : Provider) (lat : ℚ) (dayNoons : List ℚ) :
    List SunData :=
  dayNoons.map (fun noon => getSunData p noon lat 0)

/-- One step of the mirror-date search: skip the current day and days
without data, keep the candidate whose daylight difference is strictly
smaller than the best so far (`bestDiff` starts at `Infinity`). -/
def mirrorStep (yearData : List SunData) (currentDOY : ℕ)
    (currentDaylight : ℚ) (best : Option (ℕ × ℚ)) (doy : ℕ) :
    Option (ℕ × ℚ) :=
  if doy = currentDOY then best
  else
    match yearData[doy - 1]? with
    | none => best
    | some data =>
        let diff := |data.daylight - currentDaylight|
        match best with
        | none => some (doy, diff)
        | some (_, bestDiff) =>
            if diff < bestDiff then some (doy, diff) else best

/-- The candidate search of `findOppositeDate`: scan days `doy` in
`[otherHalfStart, otherHalfEnd]` with `mirrorStep`. -/
def bestMirrorDOY (yearData : List SunData) (currentDOY : ℕ)
    (currentDaylight : ℚ) (otherHalfStart otherHalfEnd : ℕ) : Option ℕ :=
  (List.range' otherHalfStart (otherHalfEnd + 1 - otherHalfStart)).foldl
    (mirrorStep yearData currentDOY currentDaylight)
    none |>.map Prod.fst

/-- `findOppositeDate(currentDate)`: the year's daylight series is always
computed at the fixed reference latitude `45` (the `MIRROR_LATITUDE`
constant) with the longitude default `0`, whatever the caller's location;
the year is split at the summer-solstice day-of-year
(`summerSolsticeDOY`, obtained from the solstice solver), and the half
not containing `currentDOY` is searched for the closest daylight match.
Returns the day-of-year of the mirror date. -/
def findOppositeDate (p : Provider) (dayNoons : List ℚ)
    (currentDOY summerSolsticeDOY : ℕ) : Option ℕ :=
  if (computeYearData p 45 dayNoons).isEmpty then none
  else
    match (computeYearData p 45 dayNoons)[currentDOY - 1]? with
    | none => none
    | some currentData =>
        bestMirrorDOY (computeYearData p 45 dayNoons) currentDOY
          currentData.daylight
          (if currentDOY ≤ summerSolsticeDOY then summerSolsticeDOY + 1
           else 1)
          (if currentDOY ≤ summerSolsticeDOY then
            (computeYearData p 45 dayNoons).length
          else summerSolsticeDOY - 1)

/-! ## Spec predicates -/

/-- The C1 contract of `getSunData` at one input, as the specification
states it: daylight bounded by a full day, the polar flags mutually
exclusive, the polar fallback decided by the sign of the noon altitude,
daylight equal to `sunset - sunrise` when both are defined, and the
returned sunrise/sunset absent exactly in the polar cases. -/
def SunDataSpec (p : Provider) (noon lat lon : ℚ) : Prop :=
  (0 ≤ (getSunData p noon lat lon).daylight ∧
    (getSunData p noon lat lon).daylight ≤ 86400000) ∧
  (¬((getSunData p noon lat lon).isPolarDay = true ∧
     (getSunData p noon lat lon).isPolarNight = true)) ∧
  (∀ sr ss, (p.getTimes noon lat lon).sunrise = some sr →
    (p.getTimes noon lat lon).sunset = some ss →
    (getSunData p noon lat lon).daylight = ss - sr ∧
    (getSunData p noon lat lon).isPolarDay = false ∧
    (getSunData p noon lat lon).isPolarNight = false) ∧
  ((p.getTimes noon lat lon).sunrise = none ∨
      (p.getTimes noon lat lon).sunset = none →
    (0 < p.altitudeDeg (p.getTimes noon lat lon).solarNoon lat lon →
      (getSunData p noon lat lon).isPolarDay = true ∧
      (getSunData p noon lat lon).daylight = 86400000) ∧
    (p.altitudeDeg (p.getTimes noon lat lon).solarNoon lat lon ≤ 0 →
      (getSunData p noon lat lon).isPolarNight = true ∧
      (getSunData p noon lat lon).daylight = 0)) ∧
  ((getSunData p noon lat lon).sunrise = none ↔
    ((getSunData p noon lat lon).isPolarDay ||
     (getSunData p noon lat lon).isPolarNight) = true) ∧
  ((getSunData p noon lat lon).sunset = none ↔
    ((getSunData p noon lat lon).isPolarDay ||
     (getSunData p noon lat lon).isPolarNight) = true)

/-- A year-series day record with a given daylight duration in hours and
polar flags (sunrise/sunset and noon fields are irrelevant to the
scanners). -/
def mkDay (hrs : ℚ) (pd pn : Bool) : SunData :=
  ⟨none, none, 0, hrs * 3600000, pd, pn⟩

/-- A six-day series containing one midnight-sun period (days 3–4). -/
def ydMidnightSun : List SunData :=
  [mkDay 20 false false, mkDay 20 false false, mkDay 24 true false,
   mkDay 24 true false, mkDay 20 false false, mkDay 22 false false]

/-- A three-day series whose second day crosses two integer-hour
thresholds at once (10h to 12.5h of daylight). -/
def ydOvershoot : List SunData :=
  [mkDay 10 false false, mkDay (25/2) false false,
   mkDay (25/2) false false]

/-- The four extreme-transition milestone texts. -/
def extremeDescList : List String :=
  [descPolarNightBegins, descPolarNightEnds, descMidnightSunBegins,
   descMidnightSunEnds]

/-- A provider whose day has sunrise at 06:00 and sunset at 18:00 UTC
(milliseconds), noon altitude 30°. -/
def witProvider : Provider :=
  { getTimes := fun _ _ _ =>
      { sunrise := some 21600000, sunset := some 64800000
        solarNoon := 43200000, dawn := none, dusk := none
        nauticalDawn := none, nauticalDusk := none
        nightEnd := none, night := none }
    altitudeDeg := fun _ _ _ => 30 }

/-- The structural invariant of a reachable cache: the configured
capacity, pairwise-distinct keys, and size within capacity. -/
def LRUInv (c : LRUCache) (cap : ℕ) : Prop :=
  c.max = cap ∧ c.keys.Nodup ∧ c.map.length ≤ cap

/-- The C9 contract of the LRU cache over one operation sequence: size
never exceeds capacity; a miss returns `undefined` and changes nothing;
a hit returns the stored value and moves the entry to the
most-recently-used (last) position, so that an immediately following
`set` of a different key cannot evict it (capacity at least 2); and a
`set` of a new key at capacity evicts exactly the oldest (head) entry. -/
def LRUSpec (cap : ℕ) (ops : List CacheOp) : Prop :=
  (runCache cap ops).size ≤ cap ∧
  (∀ k, (runCache cap ops).has k = false →
    (runCache cap ops).getVal k = none ∧
    (runCache cap ops).getState k = runCache cap ops) ∧
  (∀ k v, (k, v) ∈ (runCache cap ops).map →
    (runCache cap ops).getVal k = some v ∧
    ((runCache cap ops).getState k).map =
      LRUCache.mapDelete (runCache cap ops).map k ++ [(k, v)]) ∧
  (∀ k v, (runCache cap ops).has k = false →
    (runCache cap ops).map.length = cap →
    ((runCache cap ops).set k v).map =
      (runCache cap ops).map.tail ++ [(k, v)]) ∧
  (∀ k v k' v', (k, v) ∈ (runCache cap ops).map → k ≠ k' → 2 ≤ cap →
    (((runCache cap ops).getState k).set k' v').has k = true)

/-- Band starts are in list order (the claimed "sorted by start hour"). -/
def sortedByStart (bands : List Band) : Prop :=
  bands.Chain' (fun a b => a.morning ≤ b.morning)

instance (bands : List Band) : Decidable (sortedByStart bands) :=
  inferInstanceAs (Decidable (List.Chain' _ bands))

/-- The bands are pairwise non-overlapping as half-open intervals. -/
def bandsDisjoint (bands : List Band) : Prop :=
  bands.Pairwise (fun a b => a.evening ≤ b.morning ∨ b.evening ≤ a.morning)

instance (bands : List Band) : Decidable (bandsDisjoint bands) :=
  inferInstanceAs (Decidable (List.Pairwise _ bands))

/-- Every band has positive length and endpoints within `[0, 24]`. -/
def bandsWF (bands : List Band) : Prop :=
  ∀ b ∈ bands, 0 ≤ b.morning ∧ b.morning < b.evening ∧ b.evening ≤ 24

instance (bands : List Band) : Decidable (bandsWF bands) :=
  inferInstanceAs (Decidable (∀ b ∈ bands, _ ∧ _ ∧ _))

/-- The band invariants that hold for every timezone shift: at most two
bands, each of strictly positive length, pairwise non-overlapping. -/
def bandInvariants (bands : List Band) : Prop :=
  bands.length ≤ 2 ∧ (∀ b ∈ bands, b.morning < b.evening) ∧
    bandsDisjoint bands

instance (bands : List Band) : Decidable (bandInvariants bands) :=
  inferInstanceAs (Decidable (_ ∧ _ ∧ _))

/-- A degenerate model of `Math.sin` (identically zero), used to witness
the solver hypotheses: the longitude formula then reduces to the mean
longitude, an affine function of time. -/
def sinZero : ℚ → ℚ := fun _ => 0

/-- The ephemeris contract for a pair of twilight zones: `A` is the
brighter zone (higher altitude threshold `tA`), `B` the darker
(`tB < tA`); `mtA`/`etA` are the provider's morning and evening
crossing instants for `A`, likewise for `B`.  The clauses state what
astronomy guarantees about threshold crossings of the continuous,
single-peaked daily altitude curve whose maximum is the noon altitude:
events lie within the day (spec: "well-behaved ... both within
[0, 24]", "rise < set"), crossings of the lower threshold bracket those
of the higher, touching the higher threshold puts the noon maximum
above the lower one, and a day that never crosses the higher threshold
while peaking above it (or ending above it) cannot cross the lower
one. -/
def ZonePairContract (p : Provider) (mtA etA mtB etB : Option ℚ)
    (tA tB refMidnight refNoon lat lng : ℚ) : Prop :=
  tB < tA ∧
  (∀ a, mtA = some a →
    0 ≤ (a - refMidnight) / 3600000 ∧ (a - refMidnight) / 3600000 ≤ 24) ∧
  (∀ a, etA = some a →
    0 ≤ (a - refMidnight) / 3600000 ∧ (a - refMidnight) / 3600000 ≤ 24) ∧
  (∀ a, mtB = some a →
    0 ≤ (a - refMidnight) / 3600000 ∧ (a - refMidnight) / 3600000 ≤ 24) ∧
  (∀ a, etB = some a →
    0 ≤ (a - refMidnight) / 3600000 ∧ (a - refMidnight) / 3600000 ≤ 24) ∧
  (∀ a b, mtA = some a → etA = some b →
    (a - refMidnight) / 3600000 < (b - refMidnight) / 3600000) ∧
  (∀ a b, mtB = some a → etB = some b →
    (a - refMidnight) / 3600000 < (b - refMidnight) / 3600000) ∧
  (∀ a b, mtA = some a → mtB = some b →
    (b - refMidnight) / 3600000 ≤ (a - refMidnight) / 3600000) ∧
  (∀ a b, etA = some a → etB = some b →
    (a - refMidnight) / 3600000 ≤ (b - refMidnight) / 3600000) ∧
  ((∃ a, mtA = some a) ∨ (∃ a, etA = some a) →
    tB < p.altitudeDeg refNoon lat lng) ∧
  ((∃ a, mtA = some a) → etA = none → etB = none) ∧
  ((∃ a, etA = some a) → mtA = none → mtB = none) ∧
  (mtA = none → etA = none → tA < p.altitudeDeg refNoon lat lng →
    mtB = none ∧ etB = none)

/-- A provider with strictly nested twilight times for one day:
sunrise 06:00 / sunset 18:00, civil 05:30--18:30, nautical 05:00--19:00,
astronomical 04:30--19:30 (milliseconds from UTC midnight), noon
altitude 30 degrees. -/
def nestedProvider : Provider :=
  { getTimes := fun _ _ _ =>
      { sunrise := some 21600000, sunset := some 64800000
        solarNoon := 43200000
        dawn := some 19800000, dusk := some 66600000
        nauticalDawn := some 18000000, nauticalDusk := some 68400000
        nightEnd := some 16200000, night := some 70200000 }
    altitudeDeg := fun _ _ _ => 30 }

/-- A provider whose day, in natural solar time at longitude `-171`
(natural midnight 41_040_000 ms after UTC midnight), has sunrise at
00:30 and sunset at 23:54 natural hours; noon altitude 30 degrees. -/
def lateProvider : Provider :=
  { getTimes := fun _ _ _ =>
      { sunrise := some 42840000, sunset := some 127080000
        solarNoon := 84240000, dawn := none, dusk := none
        nauticalDawn := none, nauticalDusk := none
        nightEnd := none, night := none }
    altitudeDeg := fun _ _ _ => 30 }

/-! ## Theorems -/

/-- C1: for every date, latitude in [-90, 90] and longitude in
[-180, 180], `getSunData` keeps `0 ≤ daylightMs ≤ 86_400_000` and never
sets both polar flags; with an undefined sunrise or sunset the noon
altitude's sign decides polar day (`86_400_000` ms) versus polar night
(`0` ms); with both defined, `daylightMs = sunset - sunrise`; and the
returned sunrise/sunset are absent exactly when a polar flag is set.
The provider contract (both events of one calendar day are ordered and
at most 24 hours apart) bounds the subtraction branch. -/
theorem getSunData_spec (p : Provider) (noon lat lon : ℚ)
    (hlat : -90 ≤ lat ∧ lat ≤ 90) (hlon : -180 ≤ lon ∧ lon ≤ 180)
    (hcontract : ∀ sr ss, (p.getTimes noon lat lon).sunrise = some sr →
      (p.getTimes noon lat lon).sunset = some ss →
      sr ≤ ss ∧ ss - sr ≤ 86400000) :
    SunDataSpec p noon lat lon := by
  unfold SunDataSpec getSunData
  rcases hsr : (p.getTimes noon lat lon).sunrise with _ | sr <;>
    rcases hss : (p.getTimes noon lat lon).sunset with _ | ss <;>
    simp only [hsr, hss] <;>
    first
      | (constructor
         · split <;> simp <;> norm_num
         constructor
         · split <;> simp
         constructor
         · intro sr ss h1 h2 <;> simp_all
         constructor
         · intro _
           constructor
           · intro halt
             rw [if_pos halt]
             exact ⟨rfl, rfl⟩
           · intro halt
             rw [if_neg (by exact not_lt.mpr halt)]
             exact ⟨rfl, rfl⟩
         constructor <;> split <;> simp)
      | (obtain ⟨h1, h2⟩ := hcontract sr ss hsr hss
         refine ⟨⟨by linarith, h2⟩, by simp, ?_, by simp, by simp, by simp⟩
         intro sr' ss' hsr' hss'
         simp_all)


/-- Witness for C1 at the concrete provider, latitude 45, longitude 0. -/
theorem getSunData_spec_witness : SunDataSpec witProvider 43200000 45 0 :=
  getSunData_spec witProvider 43200000 45 0 (by norm_num) (by norm_num)
    (by intro sr ss h1 h2
        simp only [witProvider, Option.some.injEq] at h1 h2
        constructor <;> rw [← h1, ← h2] <;> norm_num)

/-! ## C9: LRU cache -/


/-- Deleting a key from an entry list never lengthens it. -/
theorem mapDelete_length_le (m : List (ℕ × ℕ)) (k : ℕ) :
    (LRUCache.mapDelete m k).length ≤ m.length :=
  List.length_filter_le _ m

/-- Deleting a present key from an entry list shortens it. -/
theorem mapDelete_length_lt (m : List (ℕ × ℕ)) (k v : ℕ)
    (hm : (k, v) ∈ m) : (LRUCache.mapDelete m k).length < m.length := by
  have : ∃ e ∈ m, ¬(decide (e.1 ≠ k)) = true := ⟨(k, v), hm, by simp⟩
  unfold LRUCache.mapDelete
  rw [List.length_filter_lt_length_iff_exists]
  exact ⟨(k, v), hm, by simp⟩

/-- The deleted key is gone from the keys of the result. -/
theorem mapDelete_not_mem_keys (m : List (ℕ × ℕ)) (k : ℕ) :
    k ∉ (LRUCache.mapDelete m k).map Prod.fst := by
  intro h
  obtain ⟨e, he, hek⟩ := List.mem_map.mp h
  have := List.of_mem_filter he
  simp [hek] at this

/-- Deleting preserves distinctness of keys. -/
theorem mapDelete_nodup (m : List (ℕ × ℕ)) (k : ℕ)
    (h : (m.map Prod.fst).Nodup) :
    ((LRUCache.mapDelete m k).map Prod.fst).Nodup :=
  h.sublist ((List.filter_sublist m).map Prod.fst)

/-- `has` is key membership. -/
theorem has_iff_mem_keys (c : LRUCache) (k : ℕ) :
    c.has k = true ↔ k ∈ c.keys := by
  simp [LRUCache.has]

/-- With distinct keys, `find?` at a stored key returns its entry. -/
theorem find_entry (m : List (ℕ × ℕ)) (k v : ℕ)
    (hnd : (m.map Prod.fst).Nodup) (hm : (k, v) ∈ m) :
    m.find? (fun e => e.1 == k) = some (k, v) := by
  induction m with
  | nil => cases hm
  | cons e t ih =>
      simp only [List.map_cons, List.nodup_cons] at hnd
      rcases List.mem_cons.mp hm with he | ht
      · subst he
        simp [List.find?]
      · have hek : e.1 ≠ k := by
          intro hk
          exact hnd.1 (hk ▸ List.mem_map.mpr ⟨(k, v), ht, rfl⟩)
        have hbeq : (e.1 == k) = false := by simpa using hek
        rw [List.find?_cons, hbeq]
        exact ih hnd.2 ht

/-- Deleting a key then appending a fresh entry for it keeps keys
distinct. -/
theorem delete_reinsert_nodup (m : List (ℕ × ℕ)) (k v : ℕ)
    (hnd : (m.map Prod.fst).Nodup) :
    (((LRUCache.mapDelete m k ++ [(k, v)]).map Prod.fst)).Nodup := by
  simp only [List.map_append, List.map_cons, List.map_nil]
  refine List.Nodup.append (mapDelete_nodup m k hnd) (List.nodup_singleton k) ?_
  intro a ha hb
  simp only [List.mem_singleton] at hb
  exact mapDelete_not_mem_keys m k (hb ▸ ha)

/-- Deleting a present key then appending an entry does not lengthen the
list. -/
theorem delete_reinsert_length (m : List (ℕ × ℕ)) (k v : ℕ)
    (hk : k ∈ m.map Prod.fst) :
    (LRUCache.mapDelete m k ++ [(k, v)]).length ≤ m.length := by
  obtain ⟨e, he, hek⟩ := List.mem_map.mp hk
  have hlt := mapDelete_length_lt m e.1 e.2 (by simpa using he)
  rw [hek] at hlt
  simp only [List.length_append, List.length_cons, List.length_nil]
  omega

/-- One cache operation preserves the structural invariant. -/
theorem stepCache_inv (cap : ℕ) (hcap : 1 ≤ cap) (c : LRUCache)
    (h : LRUInv c cap) (op : CacheOp) : LRUInv (stepCache c op) cap := by
  obtain ⟨hmax, hnd, hlen⟩ := h
  cases op with
  | get k =>
      simp only [stepCache, LRUCache.getState]
      split
      · rename_i hhas
        rcases hv : c.lookup k with _ | v
        · exact ⟨hmax, hnd, hlen⟩
        · have hk : k ∈ c.keys := (has_iff_mem_keys c k).mp hhas
          exact ⟨hmax, delete_reinsert_nodup c.map k v hnd,
            le_trans (delete_reinsert_length c.map k v hk) hlen⟩
      · exact ⟨hmax, hnd, hlen⟩
  | set k v =>
      simp only [stepCache, LRUCache.set]
      split
      · rename_i hhas
        have hk : k ∈ c.keys := (has_iff_mem_keys c k).mp hhas
        exact ⟨hmax, delete_reinsert_nodup c.map k v hnd,
          le_trans (delete_reinsert_length c.map k v hk) hlen⟩
      · rename_i hhas
        have hk : k ∉ c.keys := by
          intro hk
          exact hhas ((has_iff_mem_keys c k).mpr hk)
        split
        · rename_i hfull
          refine ⟨hmax, ?_, ?_⟩
          · simp only [LRUCache.keys, List.map_append, List.map_cons, List.map_nil]
            have htl : ((c.map.tail).map Prod.fst).Nodup :=
              hnd.sublist ((c.map.tail_sublist).map Prod.fst)
            refine List.Nodup.append htl (List.nodup_singleton k) ?_
            intro a ha hb
            simp only [List.mem_singleton] at hb
            subst hb
            have : a ∈ c.keys := by
              obtain ⟨e, he, hek⟩ := List.mem_map.mp ha
              exact List.mem_map.mpr ⟨e, List.mem_of_mem_tail he, hek⟩
            exact hk this
          · simp only [List.length_append, List.length_cons, List.length_nil]
            have := c.map.length_tail
            omega
        · rename_i hfull
          refine ⟨hmax, ?_, ?_⟩
          · simp only [LRUCache.keys, List.map_append, List.map_cons, List.map_nil]
            refine List.Nodup.append hnd (List.nodup_singleton k) ?_
            intro a ha hb
            simp only [List.mem_singleton] at hb
            subst hb
            exact hk ha
          · simp only [List.length_append, List.length_cons, List.length_nil]
            rw [hmax] at hfull
            omega

/-- Every reachable cache state satisfies the invariant. -/
theorem runCache_inv (cap : ℕ) (hcap : 1 ≤ cap) (ops : List CacheOp) :
    LRUInv (runCache cap ops) cap := by
  suffices h : ∀ c, LRUInv c cap → LRUInv (ops.foldl stepCache c) cap by
    exact h ⟨cap, []⟩ ⟨rfl, List.nodup_nil, Nat.zero_le cap⟩
  induction ops with
  | nil => intro c hc; exact hc
  | cons op t ih =>
      intro c hc
      exact ih _ (stepCache_inv cap hcap c hc op)


/-- C9: for every sequence of get/set operations on an LRU cache of
capacity `cap ≥ 1`, the size stays within capacity, a miss leaves the
cache untouched and returns `undefined`, a hit returns the value and
refreshes the entry to most-recently-used (protecting it from the next
eviction when `cap ≥ 2`), and a full-cache insert of a new key evicts
exactly the least-recently-touched entry. -/
theorem lruCache_spec (cap : ℕ) (hcap : 1 ≤ cap) (ops : List CacheOp) :
    LRUSpec cap ops := by
  obtain ⟨hmax, hnd, hlen⟩ := runCache_inv cap hcap ops
  set c := runCache cap ops with hc
  have hkeys : ∀ k v, (k, v) ∈ c.map → c.has k = true := by
    intro k v hm
    exact (has_iff_mem_keys c k).mpr (List.mem_map.mpr ⟨(k, v), hm, rfl⟩)
  have hlookup : ∀ k v, (k, v) ∈ c.map → c.lookup k = some v := by
    intro k v hm
    unfold LRUCache.lookup
    rw [find_entry c.map k v hnd hm]
    rfl
  refine ⟨hlen, ?_, ?_, ?_, ?_⟩
  · intro k hmiss
    constructor
    · unfold LRUCache.getVal
      rw [hmiss]
      simp
    · unfold LRUCache.getState
      rw [hmiss]
      simp
  · intro k v hm
    have hhit := hkeys k v hm
    have hl := hlookup k v hm
    constructor
    · unfold LRUCache.getVal
      rw [hhit, hl]
      simp
    · unfold LRUCache.getState
      rw [hhit, hl]
      simp
  · intro k v hmiss hfull
    unfold LRUCache.set
    rw [hmiss]
    simp only [Bool.false_eq_true, if_false]
    have hcond : c.max ≤ c.map.length := by
      rw [hfull, hc]
      exact le_of_eq hmax
    rw [if_pos hcond]
  · intro k v k' v' hm hne hcap2
    have hhit := hkeys k v hm
    have hl := hlookup k v hm
    have hst : (c.getState k).map = LRUCache.mapDelete c.map k ++ [(k, v)] := by
      unfold LRUCache.getState
      rw [hhit, hl]
      simp
    have hstmax : (c.getState k).max = c.max := by
      unfold LRUCache.getState
      rw [hhit, hl]
      simp
    set c' := c.getState k with hc'
    have hmem' : (k, v) ∈ c'.map := by
      rw [hst]
      exact List.mem_append_right _ (List.mem_singleton.mpr rfl)
    unfold LRUCache.set
    split
    · rename_i hhas'
      apply (has_iff_mem_keys _ k).mpr
      apply List.mem_map.mpr
      refine ⟨(k, v), ?_, rfl⟩
      simp only [LRUCache.keys]
      apply List.mem_append_left
      apply List.mem_filter.mpr
      exact ⟨hmem', by simpa using hne⟩
    · split
      · rename_i hhas' hfull'
        apply (has_iff_mem_keys _ k).mpr
        apply List.mem_map.mpr
        refine ⟨(k, v), ?_, rfl⟩
        simp only [LRUCache.keys]
        apply List.mem_append_left
        rcases hdel : LRUCache.mapDelete c.map k with _ | ⟨e, rest⟩
        · exfalso
          rw [hstmax, hmax] at hfull'
          rw [hst, hdel] at hfull'
          simp at hfull'
          omega
        · rw [hst, hdel]
          simp
      · apply (has_iff_mem_keys _ k).mpr
        apply List.mem_map.mpr
        exact ⟨(k, v), List.mem_append_left _ hmem', rfl⟩

/-- Witness for C9: capacity 2, a concrete four-operation session. -/
theorem lruCache_spec_witness :
    LRUSpec 2 [CacheOp.set 1 10, CacheOp.set 2 20, CacheOp.get 1,
      CacheOp.set 3 30] :=
  lruCache_spec 2 (by norm_num)
    [CacheOp.set 1 10, CacheOp.set 2 20, CacheOp.get 1, CacheOp.set 3 30]

/-! ## C3, C4: band rotation -/


/-- C3: the claimed inverse `rotateBands(rotateBands(bands, s), -s) ==
bands` (as point sets of half-open intervals, i.e. after merging) fails
on the code.  At `bands = [[3, 10]]`, `s = -5` — a band list inside
`[0, 24]` and a shift in `(-24, 24)` — the inner rotation wraps the band
into `[0,5] ∪ [22,24]`, and rotating `[22,24]` back by `+5` lands in the
forward-wrap branch with `morning = 27 ≥ 24`, which emits `[0, 5]`
instead of `[3, 5]`: the hour `0` is in the round-tripped set but not in
the original. -/
theorem rotateBands_roundtrip_failure :
    (∀ b ∈ [Band.mk 3 10],
      0 ≤ b.morning ∧ b.morning ≤ b.evening ∧ b.evening ≤ 24) ∧
    (-24 : ℚ) < -5 ∧ (-5 : ℚ) < 24 ∧
    rotateBands (rotateBands [Band.mk 3 10] (-5)) 5 =
      [Band.mk 5 10, Band.mk 0 5] ∧
    memBands 0 (rotateBands (rotateBands [Band.mk 3 10] (-5)) 5) ∧
    ¬ memBands 0 [Band.mk 3 10] := by
  have h1 : rotateBands [Band.mk 3 10] (-5) = [Band.mk 0 5, Band.mk 22 24] := by
    norm_num [rotateBands, List.flatMap, List.filter]
  have h2 : rotateBands [Band.mk 0 5, Band.mk 22 24] 5 =
      [Band.mk 5 10, Band.mk 0 5] := by
    norm_num [rotateBands, List.flatMap, List.filter]
  refine ⟨?_, by norm_num, by norm_num, by rw [h1, h2], ?_, ?_⟩
  · intro b hb
    simp only [List.mem_singleton] at hb
    subst hb
    norm_num
  · rw [h1, h2]
    exact ⟨Band.mk 0 5, by simp, by norm_num⟩
  · intro h
    obtain ⟨b, hb, hb1, hb2⟩ := h
    simp only [List.mem_singleton] at hb
    subst hb
    norm_num at hb1

/-- C4 counterexample, both failing clauses of the original claim:
(i) a daylight band `[20, 23]` in natural solar time rotated by `+3`
hours splits into `[23, 24]` then `[0, 2]`, in that order — the band
list is not sorted by start hour; (ii) at longitude `-171` viewed in
the selectable UTC+13 timezone the rotation shift is `+24.4` hours, and
a day with sunset at 23:54 natural time produces the daylight band
`[0, 24.3]`, whose evening endpoint exceeds `24`. -/
theorem band_invariant_failures :
    (rotateBands
      (resolveZone witProvider (some 72000000) (some 82800000)
        THRESH_SUNRISE 0 43200000 45 0) 3 =
      [Band.mk 23 24, Band.mk 0 2] ∧
    ¬ sortedByStart
      (rotateBands
        (resolveZone witProvider (some 72000000) (some 82800000)
          THRESH_SUNRISE 0 43200000 45 0) 3)) ∧
    ((twilightForDay lateProvider 0 45 (-171) (-46800000)).daylight =
      [Band.mk 0 (243/10)] ∧
    ¬ bandsWF (twilightForDay lateProvider 0 45 (-171) (-46800000)).daylight) := by
  have h0 : resolveZone witProvider (some 72000000) (some 82800000)
      THRESH_SUNRISE 0 43200000 45 0 = [Band.mk 20 23] := by
    norm_num [resolveZone, toHourRelative, witProvider, THRESH_SUNRISE,
      inf_eq_min, sup_eq_max, min_def, max_def]
  have h1 : rotateBands [Band.mk 20 23] 3 = [Band.mk 23 24, Band.mk 0 2] := by
    norm_num [rotateBands, List.flatMap, List.filter]
  have h2 : (twilightForDay lateProvider 0 45 (-171) (-46800000)).daylight =
      [Band.mk 0 (243/10)] := by
    have habs : |(122 : ℚ) / 5| = 122 / 5 := abs_of_pos (by norm_num)
    norm_num [twilightForDay, lateProvider, resolveZone, toHourRelative,
      rotateBands, THRESH_SUNRISE, List.flatMap, List.filter, habs,
      inf_eq_min, sup_eq_max, min_def, max_def]
  refine ⟨⟨by rw [h0, h1], ?_⟩, h2, ?_⟩
  · rw [h0, h1]
    intro h
    simp only [sortedByStart, List.chain'_cons, List.chain'_singleton,
      and_true] at h
    norm_num at h
  · rw [h2]
    intro h
    have hb := h (Band.mk 0 (243/10)) (by simp)
    norm_num at hb

/-- `resolveZone` returns no band or a single positive band within
`[0, 24]`. -/
theorem resolveZone_cases (p : Provider) (mt et : Option ℚ)
    (thr ref noon lat lng : ℚ) :
    resolveZone p mt et thr ref noon lat lng = [] ∨
    ∃ m e : ℚ, resolveZone p mt et thr ref noon lat lng = [⟨m, e⟩] ∧
      0 ≤ m ∧ m < e ∧ e ≤ 24 := by
  have hclamp : ∀ x : ℚ, 0 ≤ 0 ⊔ 24 ⊓ x ∧ 0 ⊔ 24 ⊓ x ≤ 24 := fun x =>
    ⟨le_sup_left, sup_le (by norm_num) inf_le_left⟩
  unfold resolveZone toHourRelative
  rcases mt with _ | a <;> rcases et with _ | b <;>
    simp only [Option.map_none', Option.map_some']
  · split_ifs
    · exact Or.inr ⟨0, 24, rfl, by norm_num, by norm_num, by norm_num⟩
    · exact Or.inl rfl
  · split_ifs with h1 h2
    · exact Or.inr ⟨0, _, rfl, le_refl 0, h2, (hclamp _).2⟩
    · exact Or.inl rfl
    · exact Or.inl rfl
  · split_ifs with h1 h2
    · exact Or.inr ⟨_, 24, rfl, (hclamp _).1, h2, le_refl 24⟩
    · exact Or.inl rfl
    · exact Or.inl rfl
  · split_ifs with h1 h2
    · exact Or.inr ⟨_, _, rfl, (hclamp _).1, h1, (hclamp _).2⟩
    · exact Or.inr ⟨0, 24, rfl, by norm_num, by norm_num, by norm_num⟩
    · exact Or.inl rfl

/-- Filtering a singleton of a positive band keeps it. -/
theorem filter_band_one (a : Band) (h : a.morning < a.evening) :
    List.filter (fun b => decide (b.morning < b.evening)) [a] = [a] := by
  simp [List.filter, h]

/-- Filtering two positive bands keeps both. -/
theorem filter_band_two (a b : Band) (ha : a.morning < a.evening)
    (hb : b.morning < b.evening) :
    List.filter (fun c => decide (c.morning < c.evening)) ([a] ++ [b]) =
      [a, b] := by
  simp [List.filter, ha, hb]

/-- Rotating one positive band inside `[0, 24]` by any shift yields at
most two bands, each of strictly positive length, pairwise disjoint. -/
theorem rotate_single_invariants (m e s : ℚ) (hm : 0 ≤ m) (hme : m < e)
    (he : e ≤ 24) :
    bandInvariants (rotateBands [⟨m, e⟩] s) := by
  have hband2 : ∀ a b : Band, a.morning < a.evening →
      b.morning < b.evening →
      (a.evening ≤ b.morning ∨ b.evening ≤ a.morning) →
      bandInvariants [a, b] := by
    intro a b ha hb hab
    refine ⟨by simp, ?_, ?_⟩
    · intro c hc
      rcases List.mem_cons.mp hc with h | h
      · subst h; exact ha
      · simp only [List.mem_singleton] at h
        subst h; exact hb
    · exact List.pairwise_cons.mpr
        ⟨fun c hc => by
          simp only [List.mem_singleton] at hc
          subst hc; exact hab, List.pairwise_singleton _ _⟩
  have hband1 : ∀ a : Band, a.morning < a.evening → bandInvariants [a] := by
    intro a ha
    refine ⟨by simp, ?_, List.pairwise_singleton _ _⟩
    intro c hc
    simp only [List.mem_singleton] at hc
    subst hc
    exact ha
  unfold rotateBands
  split_ifs with hsmall
  · exact hband1 ⟨m, e⟩ hme
  · simp only [List.flatMap_cons, List.flatMap_nil, List.append_nil]
    by_cases h1 : 0 ≤ m + s ∧ e + s ≤ 24
    · rw [if_pos h1]
      rw [filter_band_one (Band.mk (m + s) (e + s)) (by dsimp; linarith)]
      exact hband1 _ (by dsimp; linarith)
    · rw [if_neg h1]
      by_cases h2 : m + s < 0 ∧ e + s ≤ 24
      · rw [if_pos h2]
        have hin : m + s + 24 < 24 := by linarith [h2.1]
        rw [if_pos hin]
        by_cases h3 : 0 < e + s
        · rw [if_pos h3]
          rw [filter_band_two (Band.mk 0 (e + s)) (Band.mk (m + s + 24) 24)
            (by dsimp; linarith) (by dsimp; linarith)]
          exact hband2 _ _ (by dsimp; linarith) (by dsimp; linarith)
            (Or.inl (by dsimp; linarith))
        · rw [if_neg h3]
          rw [List.nil_append,
            filter_band_one (Band.mk (m + s + 24) 24) (by dsimp; linarith)]
          exact hband1 _ (by dsimp; linarith)
      · rw [if_neg h2]
        by_cases h3 : 0 ≤ m + s ∧ 24 < e + s
        · rw [if_pos h3]
          have hout : (0 : ℚ) < e + s - 24 := by linarith [h3.2]
          rw [if_pos hout]
          by_cases h4 : m + s < 24
          · rw [if_pos h4]
            rw [filter_band_two (Band.mk (m + s) 24)
              (Band.mk 0 (e + s - 24)) (by dsimp; linarith)
              (by dsimp; linarith)]
            exact hband2 _ _ (by dsimp; linarith) (by dsimp; linarith)
              (Or.inr (by dsimp; linarith [h3.1]))
          · rw [if_neg h4]
            rw [List.nil_append,
              filter_band_one (Band.mk 0 (e + s - 24)) (by dsimp; linarith)]
            exact hband1 _ (by dsimp; linarith)
        · rw [if_neg h3]
          rw [filter_band_one (Band.mk (0 : ℚ) 24) (by dsimp; norm_num)]
          exact hband1 _ (by dsimp; norm_num)

/-- Rotating no bands gives no bands. -/
theorem rotateBands_nil (s : ℚ) : rotateBands [] s = [] := by
  unfold rotateBands
  split_ifs <;> rfl

/-- Resolving any twilight zone and rotating it by any shift satisfies
the shift-independent band invariants. -/
theorem rotate_resolve_invariants (p : Provider) (mt et : Option ℚ)
    (thr ref noon lat lng s : ℚ) :
    bandInvariants
      (rotateBands (resolveZone p mt et thr ref noon lat lng) s) := by
  rcases resolveZone_cases p mt et thr ref noon lat lng with
    h | ⟨m, e, h, hm, hme, he⟩
  · rw [h, rotateBands_nil]
    exact ⟨by simp, fun b hb => absurd hb (List.not_mem_nil b),
      List.Pairwise.nil⟩
  · rw [h]
    exact rotate_single_invariants m e s hm hme he

/-- C4 (amended): for every day, latitude, longitude, selected timezone
and zone kind, the resolved-and-rotated band list contains at most 2
bands, every band has strictly positive length, and the bands are
pairwise non-overlapping.  Two clauses of the original claim fail and
are dropped: the list is not always sorted by start hour (a forward
wrap emits the late fragment first), and a band endpoint can exceed
`24` when the rotation shift reaches 24 hours, which is reachable
(longitude `-171` viewed in UTC+13) — see the counterexample. -/
theorem twilight_band_invariants (p : Provider)
    (utcMidnight lat lng selectedMidnight : ℚ) :
    bandInvariants
      (twilightForDay p utcMidnight lat lng selectedMidnight).daylight ∧
    bandInvariants
      (twilightForDay p utcMidnight lat lng selectedMidnight).civil ∧
    bandInvariants
      (twilightForDay p utcMidnight lat lng selectedMidnight).nautical ∧
    bandInvariants
      (twilightForDay p utcMidnight lat lng selectedMidnight).astronomical := by
  simp only [twilightForDay]
  exact ⟨rotate_resolve_invariants p _ _ _ _ _ _ _ _,
    rotate_resolve_invariants p _ _ _ _ _ _ _ _,
    rotate_resolve_invariants p _ _ _ _ _ _ _ _,
    rotate_resolve_invariants p _ _ _ _ _ _ _ _⟩

/-! ## C5, C6, C10: the daylight milestone scanner -/

/-- C5: the scan of the six-day midnight-sun series emits the milestone
`Midnight sun ends` twice.  The second pass deduplicates through
`foundCrossings`, but the backfill pass tests
`description.toLowerCase().includes('midnight_sun_end')` — an
underscored event key that can never occur in a human-readable
description — so its "already present" guard never fires and the paired
event is re-appended. -/
theorem midnight_sun_ends_duplicated :
    ((findUpcomingDaylightMilestones ydMidnightSun 1 78 10).filter
      (fun m => m.description == descMidnightSunEnds)).length = 2 := by
  with_unfolding_all decide

/-- C10: the daylight-hour scan can exceed its `count` argument: the
bound is checked only between day iterations, so a single day crossing
two integer-hour thresholds pushes both milestones even with
`count = 1`. -/
theorem milestone_count_overshoot :
    1 < (findUpcomingDaylightMilestones ydOvershoot 2 45 1).length := by
  with_unfolding_all decide

/-- An ordinary upward-crossing milestone text is never an
extreme-transition text (the strings differ within their first two
characters). -/
theorem descMoreThan_not_extreme (h : ℕ) :
    descMoreThan h ∉ extremeDescList := by
  intro hmem
  simp only [extremeDescList, List.mem_cons, List.not_mem_nil,
    or_false] at hmem
  have hprobe0 : (descMoreThan h).data.get? 0 = some 'M' := by
    with_unfolding_all rfl
  have hprobe1 : (descMoreThan h).data.get? 1 = some 'o' := by
    with_unfolding_all rfl
  rcases hmem with h1 | h1 | h1 | h1
  · rw [h1] at hprobe0
    revert hprobe0
    with_unfolding_all decide
  · rw [h1] at hprobe0
    revert hprobe0
    with_unfolding_all decide
  · rw [h1] at hprobe1
    revert hprobe1
    with_unfolding_all decide
  · rw [h1] at hprobe1
    revert hprobe1
    with_unfolding_all decide

/-- An ordinary downward-crossing milestone text is never an
extreme-transition text. -/
theorem descLessThan_not_extreme (h : ℕ) :
    descLessThan h ∉ extremeDescList := by
  intro hmem
  simp only [extremeDescList, List.mem_cons, List.not_mem_nil,
    or_false] at hmem
  have hprobe0 : (descLessThan h).data.get? 0 = some 'L' := by
    with_unfolding_all rfl
  rcases hmem with h1 | h1 | h1 | h1 <;>
    (rw [h1] at hprobe0; revert hprobe0; with_unfolding_all decide)

/-- `pushKeyed` of a non-extreme milestone leaves the extreme sublist of
the milestones unchanged. -/
theorem pushKeyed_filter_extreme (st : Pass2State) (k : String) (g : Bool)
    (m : Milestone) (hm : m.description ∉ extremeDescList) :
    (pushKeyed st k g m).milestones.filter
      (fun x => decide (x.description ∈ extremeDescList)) =
    st.milestones.filter
      (fun x => decide (x.description ∈ extremeDescList)) := by
  unfold pushKeyed
  split_ifs
  · simp [List.filter_append, hm]
  · rfl

/-- The hour-crossing loop never adds an extreme milestone, whatever the
suppression predicate says. -/
theorem stepHours_filter_extreme (f : ℤ → Bool → Bool) (o : ℤ)
    (prevData currData : SunData) (st : Pass2State) :
    (stepHours f o prevData currData st).milestones.filter
      (fun x => decide (x.description ∈ extremeDescList)) =
    st.milestones.filter
      (fun x => decide (x.description ∈ extremeDescList)) := by
  unfold stepHours
  generalize List.range' 1 23 = hs
  induction hs generalizing st with
  | nil => rfl
  | cons h t ih =>
      simp only [List.foldl_cons]
      rw [ih]
      split_ifs
      · rw [pushKeyed_filter_extreme _ _ _ _ (descLessThan_not_extreme h),
          pushKeyed_filter_extreme _ _ _ _ (descMoreThan_not_extreme h)]
      · rw [pushKeyed_filter_extreme _ _ _ _ (descLessThan_not_extreme h)]
      · rw [pushKeyed_filter_extreme _ _ _ _ (descMoreThan_not_extreme h)]
      · rfl

/-- C6: the suppression rule, exactly as claimed: with
`W = 60` at extreme latitudes (`|lat| > 66.5`) and `W = 30` otherwise, a
downward crossing at offset `o` is suppressed exactly when a polar-night
onset lies `0..W` days ahead or a midnight-sun conclusion lies `0..7`
days behind; an upward crossing exactly when a midnight-sun onset lies
`0..W` days ahead or a polar-night conclusion lies `0..7` days behind;
and the extreme milestones a day step emits are independent of the
suppression predicate (extreme transitions are never suppressed). -/
theorem suppression_spec (events : List ExtremeEvent) (lat : ℚ) (o : ℤ) :
    (shouldSuppressHourCrossing events
        (if isExtremeLatitude lat then 60 else 30) o true = true ↔
      ∃ e ∈ events,
        (e.type = tPolarNightBegin ∧ 0 ≤ e.offset - o ∧
          e.offset - o ≤ (if isExtremeLatitude lat then 60 else 30)) ∨
        (e.type = tMidnightSunEnd ∧ 0 ≤ o - e.offset ∧
          o - e.offset ≤ 7)) ∧
    (shouldSuppressHourCrossing events
        (if isExtremeLatitude lat then 60 else 30) o false = true ↔
      ∃ e ∈ events,
        (e.type = tMidnightSunBegin ∧ 0 ≤ e.offset - o ∧
          e.offset - o ≤ (if isExtremeLatitude lat then 60 else 30)) ∨
        (e.type = tPolarNightEnd ∧ 0 ≤ o - e.offset ∧
          o - e.offset ≤ 7)) ∧
    (isExtremeLatitude lat = true ↔ 133/2 < |lat|) ∧
    (∀ (f g : ℤ → Bool → Bool) (yd : List SunData) (cd : ℤ) (PNT MST : ℚ)
      (o' : ℤ) (st : Pass2State),
      (stepDay yd cd PNT MST f o' st).milestones.filter
        (fun x => decide (x.description ∈ extremeDescList)) =
      (stepDay yd cd PNT MST g o' st).milestones.filter
        (fun x => decide (x.description ∈ extremeDescList))) := by
  refine ⟨?_, ?_, ?_, ?_⟩
  · simp only [shouldSuppressHourCrossing, List.any_eq_true,
      Bool.or_eq_true, Bool.and_eq_true, decide_eq_true_eq, beq_iff_eq,
      Bool.not_true, Bool.false_and, Bool.true_and, Bool.false_eq_true,
      false_or, or_false, false_and, and_false]
    constructor
    · rintro ⟨e, he, h⟩
      exact ⟨e, he, by tauto⟩
    · rintro ⟨e, he, h⟩
      exact ⟨e, he, by tauto⟩
  · simp only [shouldSuppressHourCrossing, List.any_eq_true,
      Bool.or_eq_true, Bool.and_eq_true, decide_eq_true_eq, beq_iff_eq,
      Bool.not_false, Bool.false_and, Bool.true_and, Bool.false_eq_true,
      false_or, or_false, false_and, and_false]
    constructor
    · rintro ⟨e, he, h⟩
      exact ⟨e, he, by tauto⟩
    · rintro ⟨e, he, h⟩
      exact ⟨e, he, by tauto⟩
  · simp [isExtremeLatitude]
  · intro f g yd cd PNT MST o' st
    unfold stepDay
    rcases getDataAtOffset yd cd (o' - 1) with _ | prevData <;>
      rcases getDataAtOffset yd cd o' with _ | currData <;>
      try rfl
    rw [stepHours_filter_extreme f, stepHours_filter_extreme g]

/-! ## C8: the mirror-date finder -/

/-- One `mirrorStep` either keeps the accumulator or proposes the
scanned day. -/
theorem mirrorStep_cases (yd : List SunData) (cd : ℕ) (cur : ℚ)
    (acc : Option (ℕ × ℚ)) (d : ℕ) (a : ℕ) (da : ℚ)
    (h : mirrorStep yd cd cur acc d = some (a, da)) :
    acc = some (a, da) ∨
    (a = d ∧ d ≠ cd ∧
      ∃ data, yd[d - 1]? = some data ∧ da = |data.daylight - cur|) := by
  unfold mirrorStep at h
  split_ifs at h with h1
  · exact Or.inl h
  · rcases hd : yd[d - 1]? with _ | data
    · rw [hd] at h
      exact Or.inl h
    · rw [hd] at h
      rcases acc with _ | ⟨b, bd⟩
      · simp only [Option.some.injEq, Prod.mk.injEq] at h
        exact Or.inr ⟨h.1.symm, h1, data, rfl, h.2.symm⟩
      · dsimp only at h
        split_ifs at h with h2
        · simp only [Option.some.injEq, Prod.mk.injEq] at h
          exact Or.inr ⟨h.1.symm, h1, data, rfl, h.2.symm⟩
        · exact Or.inl h

/-- The fold never loses a `some` accumulator and never lets the stored
difference grow. -/
theorem mirrorFold_mono (yd : List SunData) (cd : ℕ) (cur : ℚ)
    (L : List ℕ) :
    ∀ b : ℕ, ∀ db : ℚ,
      ∃ a da, L.foldl (mirrorStep yd cd cur) (some (b, db)) = some (a, da) ∧
        da ≤ db := by
  induction L with
  | nil => exact fun b db => ⟨b, db, rfl, le_refl db⟩
  | cons d t ih =>
      intro b db
      simp only [List.foldl_cons]
      have hstep : ∃ b' db', mirrorStep yd cd cur (some (b, db)) d =
          some (b', db') ∧ db' ≤ db := by
        unfold mirrorStep
        split_ifs with h1
        · exact ⟨b, db, rfl, le_refl db⟩
        · rcases hd : yd[d - 1]? with _ | data
          · exact ⟨b, db, rfl, le_refl db⟩
          · dsimp only
            split_ifs with h2
            · exact ⟨d, _, rfl, le_of_lt h2⟩
            · exact ⟨b, db, rfl, le_refl db⟩
      obtain ⟨b', db', hb', hle'⟩ := hstep
      rw [hb']
      obtain ⟨a, da, ha, hle⟩ := ih b' db'
      exact ⟨a, da, ha, le_trans hle hle'⟩

/-- If the scanned range holds a valid candidate, the fold ends on some
candidate whose stored difference is at most that candidate's. -/
theorem mirrorFold_min (yd : List SunData) (cd : ℕ) (cur : ℚ)
    (L : List ℕ) :
    ∀ acc : Option (ℕ × ℚ), ∀ d' ∈ L, d' ≠ cd →
      ∀ data', yd[d' - 1]? = some data' →
      ∃ a da, L.foldl (mirrorStep yd cd cur) acc = some (a, da) ∧
        da ≤ |data'.daylight - cur| := by
  induction L with
  | nil => intro acc d' hd'; cases hd'
  | cons d t ih =>
      intro acc d' hd' hne data' hdata'
      simp only [List.foldl_cons]
      rcases List.mem_cons.mp hd' with hd1 | hd1
      · subst hd1
        have hstep : ∃ b db, mirrorStep yd cd cur acc d' = some (b, db) ∧
            db ≤ |data'.daylight - cur| := by
          unfold mirrorStep
          rw [if_neg hne, hdata']
          rcases acc with _ | ⟨b0, db0⟩
          · exact ⟨d', _, rfl, le_refl _⟩
          · dsimp only
            split_ifs with h2
            · exact ⟨d', _, rfl, le_refl _⟩
            · exact ⟨b0, db0, rfl, le_of_not_lt h2⟩
        obtain ⟨b, db, hb, hle⟩ := hstep
        rw [hb]
        obtain ⟨a, da, ha, hle2⟩ := mirrorFold_mono yd cd cur t b db
        exact ⟨a, da, ha, le_trans hle2 hle⟩
      · exact ih _ d' hd1 hne data' hdata'

/-- Whatever the fold returns is a valid candidate: not the current day,
with data, storing that day's daylight difference; and it came either
from the accumulator or from the scanned range. -/
theorem mirrorFold_sound (yd : List SunData) (cd : ℕ) (cur : ℚ)
    (L : List ℕ) :
    ∀ acc : Option (ℕ × ℚ), ∀ a da,
      L.foldl (mirrorStep yd cd cur) acc = some (a, da) →
      acc = some (a, da) ∨
      (a ∈ L ∧ a ≠ cd ∧
        ∃ data, yd[a - 1]? = some data ∧ da = |data.daylight - cur|) := by
  induction L with
  | nil => exact fun acc a da h => Or.inl h
  | cons d t ih =>
      intro acc a da h
      simp only [List.foldl_cons] at h
      rcases ih _ a da h with h1 | h1
      · rcases mirrorStep_cases yd cd cur acc d a da h1 with h2 | h2
        · exact Or.inl h2
        · obtain ⟨ha, hd2, hdata⟩ := h2
          subst ha
          exact Or.inr ⟨List.mem_cons_self a t, hd2, hdata⟩
      · exact Or.inr ⟨List.mem_cons_of_mem d h1.1, h1.2⟩

/-- The year series has one entry per reference noon. -/
theorem computeYearData_length (p : Provider) (lat : ℚ)
    (dayNoons : List ℚ) :
    (computeYearData p lat dayNoons).length = dayNoons.length := by
  simp [computeYearData]

/-- The core guarantee of the mirror search over a candidate range
`[lo, hi]` that excludes the current day and starts inside the data. -/
theorem bestMirrorDOY_spec (yd : List SunData) (cd lo hi : ℕ) (cur : ℚ)
    (hlo1 : lo ≤ hi) (hlo2 : lo ≠ cd) (hlo3 : lo - 1 < yd.length) :
    ∃ a, bestMirrorDOY yd cd cur lo hi = some a ∧
      a ≠ cd ∧ lo ≤ a ∧ a ≤ hi ∧
      ∀ d' dataD dataD', lo ≤ d' → d' ≤ hi → d' ≠ cd →
        yd[a - 1]? = some dataD → yd[d' - 1]? = some dataD' →
        |dataD.daylight - cur| ≤ |dataD'.daylight - cur| := by
  have hmem : ∀ x, x ∈ List.range' lo (hi + 1 - lo) ↔ lo ≤ x ∧ x ≤ hi := by
    intro x
    rw [List.mem_range'_1]
    omega
  have hlodata : yd[lo - 1]? = some yd[lo - 1] :=
    List.getElem?_eq_getElem hlo3
  obtain ⟨a, da, hfold, _⟩ :=
    mirrorFold_min yd cd cur (List.range' lo (hi + 1 - lo)) none lo
      ((hmem lo).mpr ⟨le_refl lo, hlo1⟩) hlo2 _ hlodata
  rcases mirrorFold_sound yd cd cur (List.range' lo (hi + 1 - lo)) none
      a da hfold with hbad | hok
  · cases hbad
  obtain ⟨haL, hane, dataA, hdataA, hdaeq⟩ := hok
  have harange := (hmem a).mp haL
  refine ⟨a, ?_, hane, harange.1, harange.2, ?_⟩
  · unfold bestMirrorDOY
    rw [hfold]
    rfl
  · intro d' dataD dataD' h1 h2 h3 hD hD'
    obtain ⟨a2, da2, hfold2, hle⟩ :=
      mirrorFold_min yd cd cur (List.range' lo (hi + 1 - lo)) none d'
        ((hmem d').mpr ⟨h1, h2⟩) h3 dataD' hD'
    rw [hfold] at hfold2
    simp only [Option.some.injEq, Prod.mk.injEq] at hfold2
    have hDA : dataD = dataA := by
      rw [hdataA] at hD
      simpa using hD.symm
    rw [hDA, ← hdaeq, hfold2.2]
    exact hle

/-- C8: the mirror-date finder builds the year series at the fixed
reference latitude 45 (and longitude 0) — its only location inputs are
the per-day reference noons, never the caller's coordinates — splits
the year at the summer-solstice day-of-year `S`, and returns a day of
the half not containing the input (after the solstice when
`currentDOY ≤ S`, before it otherwise) that is never the input day and
whose daylight is closest by absolute difference to the input day's
among all candidates of that half. -/
theorem findOppositeDate_spec (p : Provider) (dayNoons : List ℚ)
    (currentDOY S : ℕ) (hc1 : 1 ≤ currentDOY)
    (hc2 : currentDOY ≤ dayNoons.length)
    (hS1 : 2 ≤ S) (hS2 : S < dayNoons.length) :
    ∃ d : ℕ, findOppositeDate p dayNoons currentDOY S = some d ∧
      d ≠ currentDOY ∧
      (if currentDOY ≤ S then S + 1 else 1) ≤ d ∧
      d ≤ (if currentDOY ≤ S then dayNoons.length else S - 1) ∧
      ∀ d' dataD dataD' dataCur,
        (if currentDOY ≤ S then S + 1 else 1) ≤ d' →
        d' ≤ (if currentDOY ≤ S then dayNoons.length else S - 1) →
        d' ≠ currentDOY →
        (computeYearData p 45 dayNoons)[d - 1]? = some dataD →
        (computeYearData p 45 dayNoons)[d' - 1]? = some dataD' →
        (computeYearData p 45 dayNoons)[currentDOY - 1]? = some dataCur →
        |dataD.daylight - dataCur.daylight| ≤
          |dataD'.daylight - dataCur.daylight| := by
  have hydlen : (computeYearData p 45 dayNoons).length = dayNoons.length :=
    computeYearData_length p 45 dayNoons
  have hnonempty : (computeYearData p 45 dayNoons).isEmpty = false := by
    rcases hh : computeYearData p 45 dayNoons with _ | ⟨x, xs⟩
    · rw [hh] at hydlen
      simp only [List.length_nil] at hydlen
      omega
    · rfl
  have hcuridx : currentDOY - 1 < (computeYearData p 45 dayNoons).length := by
    omega
  have hcurdata : (computeYearData p 45 dayNoons)[currentDOY - 1]? =
      some (computeYearData p 45 dayNoons)[currentDOY - 1] :=
    List.getElem?_eq_getElem hcuridx
  have hmain : findOppositeDate p dayNoons currentDOY S =
      bestMirrorDOY (computeYearData p 45 dayNoons) currentDOY
        ((computeYearData p 45 dayNoons)[currentDOY - 1]).daylight
        (if currentDOY ≤ S then S + 1 else 1)
        (if currentDOY ≤ S then (computeYearData p 45 dayNoons).length
         else S - 1) := by
    unfold findOppositeDate
    rw [hnonempty]
    rw [if_neg Bool.false_ne_true, hcurdata]
  by_cases hb : currentDOY ≤ S
  · simp only [hmain, if_pos hb, hydlen] at *
    have hyl2 : (computeYearData p 45 dayNoons).length = dayNoons.length :=
      computeYearData_length p 45 dayNoons
    obtain ⟨a, hres, hane, h1, h2, hmin⟩ :=
      bestMirrorDOY_spec (computeYearData p 45 dayNoons) currentDOY
        (S + 1) dayNoons.length
        ((computeYearData p 45 dayNoons)[currentDOY - 1]).daylight
        (by omega) (by omega) (by omega)
    refine ⟨a, hres, hane, h1, h2, ?_⟩
    intro d' dataD dataD' dataCur hh1 hh2 hh3 hD hD' hCur
    have hCurEq : dataCur = (computeYearData p 45 dayNoons)[currentDOY - 1] := by
      rw [hcurdata] at hCur
      simpa using hCur.symm
    rw [hCurEq]
    exact hmin d' dataD dataD' hh1 hh2 hh3 hD hD'
  · simp only [hmain, if_neg hb, hydlen] at *
    have hyl2 : (computeYearData p 45 dayNoons).length = dayNoons.length :=
      computeYearData_length p 45 dayNoons
    obtain ⟨a, hres, hane, h1, h2, hmin⟩ :=
      bestMirrorDOY_spec (computeYearData p 45 dayNoons) currentDOY
        1 (S - 1)
        ((computeYearData p 45 dayNoons)[currentDOY - 1]).daylight
        (by omega) (by omega) (by omega)
    refine ⟨a, hres, hane, h1, h2, ?_⟩
    intro d' dataD dataD' dataCur hh1 hh2 hh3 hD hD' hCur
    have hCurEq : dataCur = (computeYearData p 45 dayNoons)[currentDOY - 1] := by
      rw [hcurdata] at hCur
      simpa using hCur.symm
    rw [hCurEq]
    exact hmin d' dataD dataD' hh1 hh2 hh3 hD hD'

/-- Witness for C8: four identical days, current day 1, solstice day 2. -/
theorem findOppositeDate_spec_witness :
    ∃ d : ℕ, findOppositeDate witProvider [0, 0, 0, 0] 1 2 = some d ∧
      d ≠ 1 ∧
      (if 1 ≤ 2 then 2 + 1 else 1) ≤ d ∧
      d ≤ (if 1 ≤ 2 then ([(0 : ℚ), 0, 0, 0]).length else 2 - 1) ∧
      ∀ d' dataD dataD' dataCur,
        (if 1 ≤ 2 then 2 + 1 else 1) ≤ d' →
        d' ≤ (if 1 ≤ 2 then ([(0 : ℚ), 0, 0, 0]).length else 2 - 1) →
        d' ≠ 1 →
        (computeYearData witProvider 45 [0, 0, 0, 0])[d - 1]? = some dataD →
        (computeYearData witProvider 45 [0, 0, 0, 0])[d' - 1]? =
          some dataD' →
        (computeYearData witProvider 45 [0, 0, 0, 0])[1 - 1]? =
          some dataCur →
        |dataD.daylight - dataCur.daylight| ≤
          |dataD'.daylight - dataCur.daylight| :=
  findOppositeDate_spec witProvider [0, 0, 0, 0] 1 2 (by norm_num)
    (by norm_num) (by norm_num) (by norm_num)

/-! ## C7: the solstice/equinox bisection solver -/

/-- Truncation toward zero stays within one unit of its argument. -/
theorem jsTrunc_close (q : ℚ) :
    q - 1 < (jsTrunc q : ℚ) ∧ (jsTrunc q : ℚ) < q + 1 := by
  unfold jsTrunc
  split_ifs with h
  · constructor
    · exact_mod_cast Int.sub_one_lt_floor q
    · have := Int.floor_le q
      linarith
  · constructor
    · have := Int.le_ceil q
      linarith
    · exact_mod_cast Int.ceil_lt_add_one q

/-- The truncated midpoint of an integer interval stays inside it. -/
theorem jsTruncMid_mem (a b : ℤ) (hab : a ≤ b) :
    a ≤ jsTrunc (((a + b : ℤ) : ℚ) / 2) ∧
    jsTrunc (((a + b : ℤ) : ℚ) / 2) ≤ b := by
  have hx1 : (a : ℚ) ≤ ((a + b : ℤ) : ℚ) / 2 := by
    push_cast
    have : (a : ℚ) ≤ b := by exact_mod_cast hab
    linarith
  have hx2 : ((a + b : ℤ) : ℚ) / 2 ≤ (b : ℚ) := by
    push_cast
    have : (a : ℚ) ≤ b := by exact_mod_cast hab
    linarith
  unfold jsTrunc
  split_ifs with h
  · constructor
    · exact Int.le_floor.mpr hx1
    · have h1 := Int.floor_le (((a + b : ℤ) : ℚ) / 2)
      have h2 : ((⌊((a + b : ℤ) : ℚ) / 2⌋ : ℤ) : ℚ) ≤ (b : ℚ) :=
        le_trans h1 hx2
      exact_mod_cast h2
  · constructor
    · have h1 := Int.le_ceil (((a + b : ℤ) : ℚ) / 2)
      have h2 : (a : ℚ) ≤ ((⌈((a + b : ℤ) : ℚ) / 2⌉ : ℤ) : ℚ) :=
        le_trans hx1 h1
      exact_mod_cast h2
    · exact Int.ceil_le.mpr hx2

/-- The final step of the loop returns the truncated midpoint. -/
theorem bisectGo_zero (sin : ℚ → ℚ) (target : ℚ) (low high : ℤ) :
    bisectGo sin target 0 low high =
      jsTrunc ((((low + high : ℤ) : ℚ)) / 2) := rfl

/-- One step of the loop: early return below tolerance, else narrow the
bracket on the residual's sign. -/
theorem bisectGo_succ (sin : ℚ → ℚ) (target : ℚ) (n : ℕ) (low high : ℤ) :
    bisectGo sin target (n + 1) low high =
      (if |wrapDiff sin target (jsTrunc ((((low + high : ℤ) : ℚ)) / 2))| <
          1/10000 then
        jsTrunc ((((low + high : ℤ) : ℚ)) / 2)
      else if wrapDiff sin target
          (jsTrunc ((((low + high : ℤ) : ℚ)) / 2)) < 0 then
        bisectGo sin target n (jsTrunc ((((low + high : ℤ) : ℚ)) / 2)) high
      else
        bisectGo sin target n low
          (jsTrunc ((((low + high : ℤ) : ℚ)) / 2))) := rfl

/-- The bisection loop invariant: starting from a bracketing interval of
width at most `864000000 / 2 ^ (30 - n) + 2` inside the monotone,
Lipschitz window, the final residual is below the `1e-4`° tolerance. -/
theorem bisectGo_residual (sin : ℚ → ℚ) (target : ℚ) (low0 high0 : ℤ)
    (hmono : ∀ t u : ℤ, low0 ≤ t → t ≤ u → u ≤ high0 →
      wrapDiff sin target t ≤ wrapDiff sin target u)
    (hlip : ∀ t u : ℤ, low0 ≤ t → t ≤ u → u ≤ high0 →
      wrapDiff sin target u - wrapDiff sin target t ≤
        ((u - t : ℤ) : ℚ) / 43200000) :
    ∀ (n : ℕ) (low high : ℤ), low0 ≤ low → low ≤ high → high ≤ high0 →
      wrapDiff sin target low ≤ 0 → 0 ≤ wrapDiff sin target high →
      ((high - low : ℤ) : ℚ) ≤ 864000000 / 2 ^ (30 - n) + 2 →
      |wrapDiff sin target (bisectGo sin target n low high)| < 1/10000 := by
  intro n
  induction n with
  | zero =>
      intro low high h1 h2 h3 h4 h5 hw
      rw [bisectGo_zero]
      obtain ⟨hm1, hm2⟩ := jsTruncMid_mem low high h2
      set r := jsTrunc (((low + high : ℤ) : ℚ) / 2) with hr
      have hb1 : wrapDiff sin target low ≤ wrapDiff sin target r :=
        hmono low r h1 hm1 (le_trans hm2 h3)
      have hb2 : wrapDiff sin target r ≤ wrapDiff sin target high :=
        hmono r high (le_trans h1 hm1) hm2 h3
      have hlipa : wrapDiff sin target high - wrapDiff sin target low ≤
          ((high - low : ℤ) : ℚ) / 43200000 :=
        hlip low high h1 h2 h3
      have hwq : ((high - low : ℤ) : ℚ) ≤ 864000000 / 2 ^ 30 + 2 := by
        rw [Nat.sub_zero] at hw
        exact hw
      rw [abs_lt]
      constructor
      · have : -(wrapDiff sin target high - wrapDiff sin target low) ≤
            wrapDiff sin target r := by linarith
        have hbound : ((high - low : ℤ) : ℚ) / 43200000 < 1/10000 := by
          rw [div_lt_iff (by norm_num : (0:ℚ) < 43200000)]
          calc ((high - low : ℤ) : ℚ) ≤ 864000000 / 2 ^ 30 + 2 := hwq
          _ < 1/10000 * 43200000 := by norm_num
        linarith
      · have hbound : ((high - low : ℤ) : ℚ) / 43200000 < 1/10000 := by
          rw [div_lt_iff (by norm_num : (0:ℚ) < 43200000)]
          calc ((high - low : ℤ) : ℚ) ≤ 864000000 / 2 ^ 30 + 2 := hwq
          _ < 1/10000 * 43200000 := by norm_num
        linarith
  | succ n ih =>
      intro low high h1 h2 h3 h4 h5 hw
      rw [bisectGo_succ]
      obtain ⟨hm1, hm2⟩ := jsTruncMid_mem low high h2
      set mid := jsTrunc (((low + high : ℤ) : ℚ) / 2) with hmid
      obtain ⟨hc1, hc2⟩ := jsTrunc_close (((low + high : ℤ) : ℚ) / 2)
      rw [← hmid] at hc1 hc2
      have hpow : (2:ℚ) ^ (30 - n) ≤ 2 * 2 ^ (30 - (n + 1)) := by
        rcases Nat.lt_or_ge n 30 with hn | hn
        · have e : 30 - n = (30 - (n + 1)) + 1 := by omega
          rw [e, pow_succ]
          linarith [pow_pos (show (0:ℚ) < 2 by norm_num) (30 - (n + 1))]
        · have e1 : 30 - n = 0 := by omega
          have e2 : 30 - (n + 1) = 0 := by omega
          rw [e1, e2]
          norm_num
      have hhalf1 : ((high - mid : ℤ) : ℚ) ≤ 864000000 / 2 ^ (30 - n) + 2 := by
        have : ((high - mid : ℤ) : ℚ) ≤ ((high - low : ℤ) : ℚ) / 2 + 1 := by
          push_cast
          push_cast at hc1
          linarith
        have h2pos : (0:ℚ) < 2 ^ (30 - (n + 1)) := by positivity
        have hdiv : (864000000 : ℚ) / (2 * 2 ^ (30 - (n + 1))) ≤
            864000000 / 2 ^ (30 - n) := by
          rw [div_le_div_iff (by positivity) (by positivity)]
          exact mul_le_mul_of_nonneg_left hpow (by norm_num)
        calc ((high - mid : ℤ) : ℚ) ≤ ((high - low : ℤ) : ℚ) / 2 + 1 := this
        _ ≤ (864000000 / 2 ^ (30 - (n + 1)) + 2) / 2 + 1 := by
            have := hw
            linarith
        _ = 864000000 / (2 * 2 ^ (30 - (n + 1))) + 2 := by
            field_simp
            ring
        _ ≤ 864000000 / 2 ^ (30 - n) + 2 := by linarith
      have hhalf2 : ((mid - low : ℤ) : ℚ) ≤ 864000000 / 2 ^ (30 - n) + 2 := by
        have : ((mid - low : ℤ) : ℚ) ≤ ((high - low : ℤ) : ℚ) / 2 + 1 := by
          push_cast
          push_cast at hc2
          linarith
        have hdiv : (864000000 : ℚ) / (2 * 2 ^ (30 - (n + 1))) ≤
            864000000 / 2 ^ (30 - n) := by
          rw [div_le_div_iff (by positivity) (by positivity)]
          exact mul_le_mul_of_nonneg_left hpow (by norm_num)
        calc ((mid - low : ℤ) : ℚ) ≤ ((high - low : ℤ) : ℚ) / 2 + 1 := this
        _ ≤ (864000000 / 2 ^ (30 - (n + 1)) + 2) / 2 + 1 := by
            have := hw
            linarith
        _ = 864000000 / (2 * 2 ^ (30 - (n + 1))) + 2 := by
            field_simp
            ring
        _ ≤ 864000000 / 2 ^ (30 - n) + 2 := by linarith
      split_ifs with hd1 hd2
      · exact hd1
      · exact ih mid high (le_trans h1 hm1) hm2 h3 (le_of_lt hd2) h5 hhalf1
      · exact ih low mid h1 hm1 (le_trans hm2 h3) h4 (le_of_not_lt hd2)
          hhalf2

/-- Adding ten days to a civil date adds ten epoch days. -/
theorem daysFromCivil_add_ten (y m d : ℤ) :
    daysFromCivil y m (d + 10) = daysFromCivil y m d + 10 := by
  unfold daysFromCivil
  ring_nf

/-- C7: for every year and target ecliptic longitude in
{0, 90, 180, 270}, the instant the bisection solver returns has a
wrapped residual `|sunEclipticLongitude(moment) - target|` (mod 360,
wrapped to [-180, 180]) below `1e-4` degrees.  Hypotheses state the
analytic facts about the (abstract `Math.sin`-based) longitude formula
on the solver's ±5-day window: the wrapped difference is monotone,
brackets zero at the window ends, and moves at most `1/43200000` degrees
per millisecond (2° per day; the true rate is about 1° per day). -/
theorem findSolsticeEquinoxMoment_spec (sin : ℚ → ℚ) (year : ℤ)
    (target : ℕ) (htarget : target = 0 ∨ target = 90 ∨ target = 180 ∨
      target = 270)
    (hmono : ∀ t u : ℤ,
      dateUTC year (approxMonthOf target) (approxDayOf target - 5) ≤ t →
      t ≤ u →
      u ≤ dateUTC year (approxMonthOf target) (approxDayOf target + 5) →
      wrapDiff sin target t ≤ wrapDiff sin target u)
    (hlip : ∀ t u : ℤ,
      dateUTC year (approxMonthOf target) (approxDayOf target - 5) ≤ t →
      t ≤ u →
      u ≤ dateUTC year (approxMonthOf target) (approxDayOf target + 5) →
      wrapDiff sin target u - wrapDiff sin target t ≤
        ((u - t : ℤ) : ℚ) / 43200000)
    (hlow : wrapDiff sin target
      (dateUTC year (approxMonthOf target) (approxDayOf target - 5)) ≤ 0)
    (hhigh : 0 ≤ wrapDiff sin target
      (dateUTC year (approxMonthOf target) (approxDayOf target + 5))) :
    |wrapDiff sin target (findSolsticeEquinoxMoment sin year target)| <
      1/10000 := by
  have hwidth : dateUTC year (approxMonthOf target) (approxDayOf target + 5) =
      dateUTC year (approxMonthOf target) (approxDayOf target - 5) +
        864000000 := by
    unfold dateUTC
    have := daysFromCivil_add_ten year (approxMonthOf target + 1)
      (approxDayOf target - 5)
    have harg : approxDayOf target - 5 + 10 = approxDayOf target + 5 := by
      ring
    rw [harg] at this
    rw [this]
    ring
  unfold findSolsticeEquinoxMoment
  exact bisectGo_residual sin target _ _ hmono hlip 30 _ _ (le_refl _)
    (by omega) (le_refl _) hlow hhigh (by rw [hwidth]; push_cast; norm_num)


/-- `jsMod` when the quotient is a known nonnegative floor. -/
theorem jsMod_eq_of_floor (a b : ℚ) (k : ℤ) (h0 : 0 ≤ a / b)
    (hk : ⌊a / b⌋ = k) : jsMod a b = a - b * k := by
  unfold jsMod jsTrunc
  rw [if_pos h0, hk]

/-- On the June-2024 window, the zero-sine residual against target 90 is
an explicit increasing affine function of the epoch millisecond. -/
theorem wdZero_eq (t : ℤ) (h1 : (1718496000000 : ℤ) ≤ t)
    (h2 : t ≤ 1719360000000) :
    wrapDiff sinZero 90 t =
      (4928237 : ℚ) / 432000000000000 * t - 39219530771 / 2000000 := by
  have ht1 : (1718496000000 : ℚ) ≤ (t : ℚ) := by exact_mod_cast h1
  have ht2 : (t : ℚ) ≤ 1719360000000 := by exact_mod_cast h2
  unfold wrapDiff sunEclipticLongitude julianDate sinZero wrap360
  simp only [mul_zero, add_zero]
  set L : ℚ := 280.466 + 0.9856474 * ((t : ℚ) / 86400000 + 2440587.5 -
    2451545.0) with hL
  have hLlo : 9084 ≤ L := by
    rw [hL]
    norm_num
    linarith
  have hLhi : L ≤ 9095 := by
    rw [hL]
    norm_num
    linarith
  have hm1 : jsMod L 360 = L - 360 * 25 := by
    apply jsMod_eq_of_floor
    · exact div_nonneg (by linarith) (by norm_num)
    · rw [Int.floor_eq_iff]
      constructor
      · push_cast
        rw [le_div_iff (by norm_num : (0:ℚ) < 360)]
        linarith
      · push_cast
        rw [div_lt_iff (by norm_num : (0:ℚ) < 360)]
        linarith
  have hm2 : jsMod (L - 360 * 25 + 360) 360 = (L - 360 * 25 + 360) -
      360 * 1 := by
    apply jsMod_eq_of_floor
    · exact div_nonneg (by linarith) (by norm_num)
    · rw [Int.floor_eq_iff]
      constructor
      · push_cast
        rw [le_div_iff (by norm_num : (0:ℚ) < 360)]
        linarith
      · push_cast
        rw [div_lt_iff (by norm_num : (0:ℚ) < 360)]
        linarith
  rw [hm1, hm2]
  rw [if_neg (show ¬((180:ℚ) < L - 360 * 25 + 360 - 360 * 1 - 90) by
    linarith)]
  rw [if_neg (show ¬(L - 360 * 25 + 360 - 360 * 1 - 90 < (-180:ℚ)) by
    linarith)]
  rw [hL]
  push_cast
  ring_nf

/-- Witness for C7 at the zero-sine model, year 2024, target 90 (the
June solstice): every analytic hypothesis holds for the explicit affine
residual, and the solver's result lands within tolerance. -/
theorem findSolsticeEquinoxMoment_spec_witness :
    |wrapDiff sinZero ((90 : ℕ) : ℚ)
      (findSolsticeEquinoxMoment sinZero 2024 90)| < 1/10000 := by
  have hcast90 : ((90 : ℕ) : ℚ) = 90 := by norm_num
  have hlo : dateUTC 2024 (approxMonthOf 90) (approxDayOf 90 - 5) =
      1718496000000 := by
    with_unfolding_all decide
  have hhi : dateUTC 2024 (approxMonthOf 90) (approxDayOf 90 + 5) =
      1719360000000 := by
    with_unfolding_all decide
  apply findSolsticeEquinoxMoment_spec sinZero 2024 90
    (Or.inr (Or.inl rfl))
  · intro t u h1 h2 h3
    rw [hlo] at h1
    rw [hhi] at h3
    rw [hcast90, wdZero_eq t h1 (le_trans h2 h3),
      wdZero_eq u (le_trans h1 h2) h3]
    have htu : (t : ℚ) ≤ (u : ℚ) := by exact_mod_cast h2
    have key := mul_le_mul_of_nonneg_left htu
      (show (0:ℚ) ≤ 4928237 / 432000000000000 by norm_num)
    linarith
  · intro t u h1 h2 h3
    rw [hlo] at h1
    rw [hhi] at h3
    rw [hcast90, wdZero_eq t h1 (le_trans h2 h3),
      wdZero_eq u (le_trans h1 h2) h3]
    have htu : (t : ℚ) ≤ (u : ℚ) := by exact_mod_cast h2
    have hcastut : ((u - t : ℤ) : ℚ) = (u : ℚ) - (t : ℚ) := by
      push_cast
      ring
    rw [hcastut]
    have key := mul_le_mul_of_nonneg_left
      (show (4928237 : ℚ) / 432000000000000 ≤ 1/43200000 by norm_num)
      (show (0:ℚ) ≤ (u : ℚ) - (t : ℚ) by linarith)
    have expand : ((u : ℚ) - t) / 43200000 =
        ((u : ℚ) - t) * (1/43200000) := by ring
    rw [expand]
    linarith [key]
  · rw [hlo, hcast90, wdZero_eq _ (le_refl _) (by norm_num)]
    norm_num
  · rw [hhi, hcast90, wdZero_eq _ (by norm_num) (le_refl _)]
    norm_num

/-! ## C2: twilight zone nesting -/

/-- No hour lies in an empty band list. -/
theorem memBands_nil (x : ℚ) : ¬ memBands x [] := by
  rintro ⟨b, hb, _⟩
  cases hb

/-- Membership in a singleton band list. -/
theorem memBands_single (x m e : ℚ) :
    memBands x [⟨m, e⟩] ↔ m ≤ x ∧ x < e := by
  unfold memBands
  constructor
  · rintro ⟨b, hb, h1, h2⟩
    simp only [List.mem_singleton] at hb
    subst hb
    exact ⟨h1, h2⟩
  · rintro ⟨h1, h2⟩
    exact ⟨⟨m, e⟩, List.mem_singleton.mpr rfl, h1, h2⟩

/-- Membership splits over appended band lists. -/
theorem memBands_append (x : ℚ) (l1 l2 : List Band) :
    memBands x (l1 ++ l2) ↔ memBands x l1 ∨ memBands x l2 := by
  unfold memBands
  constructor
  · rintro ⟨b, hb, h1, h2⟩
    rcases List.mem_append.mp hb with h | h
    · exact Or.inl ⟨b, h, h1, h2⟩
    · exact Or.inr ⟨b, h, h1, h2⟩
  · rintro (⟨b, hb, h1, h2⟩ | ⟨b, hb, h1, h2⟩)
    · exact ⟨b, List.mem_append_left _ hb, h1, h2⟩
    · exact ⟨b, List.mem_append_right _ hb, h1, h2⟩

/-- Dropping empty bands does not change membership. -/
theorem memBands_filter (x : ℚ) (l : List Band) :
    memBands x (l.filter (fun b => decide (b.morning < b.evening))) ↔
      memBands x l := by
  unfold memBands
  constructor
  · rintro ⟨b, hb, h1, h2⟩
    exact ⟨b, (List.mem_filter.mp hb).1, h1, h2⟩
  · rintro ⟨b, hb, h1, h2⟩
    refine ⟨b, List.mem_filter.mpr ⟨hb, ?_⟩, h1, h2⟩
    exact decide_eq_true (lt_of_le_of_lt h1 h2)

/-- The hours covered by the rotation of one band, by branch of the
wrap analysis (outside the small-shift early return). -/
theorem rotSingle_mem_iff (m e s x : ℚ) (hsmall : ¬ |s| < 1/1000) :
    memBands x (rotateBands [⟨m, e⟩] s) ↔
      (0 ≤ m + s ∧ e + s ≤ 24 ∧ m + s ≤ x ∧ x < e + s) ∨
      (m + s < 0 ∧ e + s ≤ 24 ∧
        ((0 ≤ x ∧ x < e + s) ∨ (m + s + 24 ≤ x ∧ x < 24))) ∨
      (0 ≤ m + s ∧ 24 < e + s ∧
        ((m + s ≤ x ∧ x < 24) ∨ (0 ≤ x ∧ x < e + s - 24))) ∨
      (m + s < 0 ∧ 24 < e + s ∧ 0 ≤ x ∧ x < 24) := by
  unfold rotateBands
  rw [if_neg hsmall]
  simp only [List.flatMap_cons, List.flatMap_nil, List.append_nil]
  rw [memBands_filter]
  by_cases h1 : 0 ≤ m + s ∧ e + s ≤ 24
  · rw [if_pos h1, memBands_single]
    constructor
    · rintro ⟨hx1, hx2⟩
      exact Or.inl ⟨h1.1, h1.2, hx1, hx2⟩
    · rintro (⟨_, _, hx1, hx2⟩ | ⟨hc, _, _⟩ | ⟨_, hc, _⟩ | ⟨hc, _, _⟩)
      · exact ⟨hx1, hx2⟩
      · exact absurd h1.1 (by linarith)
      · exact absurd h1.2 (by linarith)
      · exact absurd h1.1 (by linarith)
  · rw [if_neg h1]
    by_cases h2 : m + s < 0 ∧ e + s ≤ 24
    · rw [if_pos h2]
      have hin : m + s + 24 < 24 := by linarith [h2.1]
      rw [if_pos hin]
      constructor
      · intro hmem
        rcases (memBands_append x _ _).mp hmem with hmem | hmem
        · split_ifs at hmem with hpos
          · rw [memBands_single] at hmem
            exact Or.inr (Or.inl ⟨h2.1, h2.2, Or.inl hmem⟩)
          · exact absurd hmem (memBands_nil x)
        · rw [memBands_single] at hmem
          exact Or.inr (Or.inl ⟨h2.1, h2.2, Or.inr hmem⟩)
      · rintro (⟨hc, _, _⟩ | ⟨_, _, hd⟩ | ⟨_, hc, _⟩ | ⟨_, hc, _⟩)
        · exact absurd hc (by linarith [h2.1])
        · rcases hd with ⟨hx1, hx2⟩ | ⟨hx1, hx2⟩
          · apply (memBands_append x _ _).mpr
            left
            rw [if_pos (by linarith : (0:ℚ) < e + s)]
            exact (memBands_single x 0 (e + s)).mpr ⟨hx1, hx2⟩
          · apply (memBands_append x _ _).mpr
            right
            exact (memBands_single x (m + s + 24) 24).mpr ⟨hx1, hx2⟩
        · exact absurd hc (by linarith [h2.2])
        · exact absurd hc (by linarith [h2.2])
    · rw [if_neg h2]
      by_cases h3 : 0 ≤ m + s ∧ 24 < e + s
      · rw [if_pos h3]
        constructor
        · intro hmem
          rcases (memBands_append x _ _).mp hmem with hmem | hmem
          · split_ifs at hmem with hlt
            · rw [memBands_single] at hmem
              exact Or.inr (Or.inr (Or.inl ⟨h3.1, h3.2, Or.inl hmem⟩))
            · exact absurd hmem (memBands_nil x)
          · split_ifs at hmem with hlt
            · rw [memBands_single] at hmem
              exact Or.inr (Or.inr (Or.inl ⟨h3.1, h3.2, Or.inr hmem⟩))
            · exact absurd hmem (memBands_nil x)
        · rintro (⟨_, hc, _⟩ | ⟨hc, _, _⟩ | ⟨_, _, hd⟩ | ⟨hc, _, _⟩)
          · exact absurd hc (by linarith [h3.2])
          · exact absurd hc (by linarith [h3.1])
          · rcases hd with ⟨hx1, hx2⟩ | ⟨hx1, hx2⟩
            · apply (memBands_append x _ _).mpr
              left
              rw [if_pos (by linarith : m + s < 24)]
              exact (memBands_single x (m + s) 24).mpr ⟨hx1, hx2⟩
            · apply (memBands_append x _ _).mpr
              right
              rw [if_pos (by linarith : (0:ℚ) < e + s - 24)]
              exact (memBands_single x 0 (e + s - 24)).mpr ⟨hx1, hx2⟩
          · exact absurd hc (by linarith [h3.1])
      · have hbw : m + s < 0 ∧ 24 < e + s := by
          by_cases hm0 : 0 ≤ m + s
          · exact absurd (And.intro hm0 (by
              by_cases he0 : e + s ≤ 24
              · exact absurd (And.intro hm0 he0) h1
              · linarith [lt_of_not_le he0])) h3
          · constructor
            · linarith [lt_of_not_le hm0]
            · by_cases he0 : e + s ≤ 24
              · exact absurd (And.intro (by linarith [lt_of_not_le hm0])
                  he0) h2
              · linarith [lt_of_not_le he0]
        rw [if_neg h3, memBands_single]
        constructor
        · rintro ⟨hx1, hx2⟩
          exact Or.inr (Or.inr (Or.inr ⟨hbw.1, hbw.2, hx1, hx2⟩))
        · rintro (⟨hc, _, _⟩ | ⟨_, hc, _⟩ | ⟨hc, _, _⟩ | ⟨_, _, hx1, hx2⟩)
          · exact absurd hc (by linarith [hbw.1])
          · exact absurd hc (by linarith [hbw.2])
          · exact absurd hc (by linarith [hbw.1])
          · exact ⟨hx1, hx2⟩

/-- Rotating preserves containment of one band in a wider band: every
hour covered by the rotation of `[m, e]` is covered by the rotation of
`[M, E]` when `M ≤ m`, `e ≤ E`, `0 ≤ M`, `E ≤ 24` and the shift is at
least `-24`. -/
theorem rotate_mem_mono (M m e E s x : ℚ) (hM : 0 ≤ M) (hMm : M ≤ m)
    (heE : e ≤ E) (hE : E ≤ 24) (hs : -24 ≤ s) :
    memBands x (rotateBands [⟨m, e⟩] s) →
      memBands x (rotateBands [⟨M, E⟩] s) := by
  have hm0 : 0 ≤ m := le_trans hM hMm
  have he24 : e ≤ 24 := le_trans heE hE
  by_cases hsmall : |s| < 1/1000
  · unfold rotateBands
    rw [if_pos hsmall, if_pos hsmall, memBands_single, memBands_single]
    rintro ⟨h1, h2⟩
    exact ⟨le_trans hMm h1, lt_of_lt_of_le h2 heE⟩
  · rw [rotSingle_mem_iff m e s x hsmall, rotSingle_mem_iff M E s x hsmall]
    intro hmem
    rcases hmem with ⟨hA1, hA2, hx1, hx2⟩ | ⟨hA1, hA2, hd⟩ |
      ⟨hA1, hA2, hd⟩ | ⟨hA1, hA2, hx1, hx2⟩
    · by_cases hB1 : 0 ≤ M + s ∧ E + s ≤ 24
      · exact Or.inl ⟨hB1.1, hB1.2, by linarith, by linarith⟩
      · by_cases hB2 : M + s < 0
        · by_cases hB3 : E + s ≤ 24
          · exact Or.inr (Or.inl ⟨hB2, hB3, Or.inl ⟨by linarith,
              by linarith⟩⟩)
          · exact Or.inr (Or.inr (Or.inr ⟨hB2, by linarith, by linarith,
              by linarith⟩))
        · have hB4 : 24 < E + s := by
            by_contra hcon
            exact hB1 ⟨le_of_not_lt hB2, le_of_not_lt hcon⟩
          exact Or.inr (Or.inr (Or.inl ⟨le_of_not_lt hB2, hB4,
            Or.inl ⟨by linarith, by linarith⟩⟩))
    · have hBm : M + s < 0 := by linarith
      by_cases hB3 : E + s ≤ 24
      · rcases hd with ⟨hx1, hx2⟩ | ⟨hx1, hx2⟩
        · exact Or.inr (Or.inl ⟨hBm, hB3, Or.inl ⟨hx1, by linarith⟩⟩)
        · exact Or.inr (Or.inl ⟨hBm, hB3, Or.inr ⟨by linarith, hx2⟩⟩)
      · rcases hd with ⟨hx1, hx2⟩ | ⟨hx1, hx2⟩
        · exact Or.inr (Or.inr (Or.inr ⟨hBm, by linarith, hx1,
            by linarith⟩))
        · exact Or.inr (Or.inr (Or.inr ⟨hBm, by linarith, by linarith,
            hx2⟩))
    · have hs0 : 0 < s := by linarith
      have hBm : 0 ≤ M + s := by linarith
      have hBe : 24 < E + s := by linarith
      rcases hd with ⟨hx1, hx2⟩ | ⟨hx1, hx2⟩
      · exact Or.inr (Or.inr (Or.inl ⟨hBm, hBe, Or.inl ⟨by linarith,
          hx2⟩⟩))
      · exact Or.inr (Or.inr (Or.inl ⟨hBm, hBe, Or.inr ⟨hx1,
          by linarith⟩⟩))
    · exact absurd hA1 (by linarith)

/-- Clamping to `[0, 24]` fixes a value already inside. -/
theorem clamp_id (x : ℚ) (h1 : 0 ≤ x) (h2 : x ≤ 24) :
    (0 : ℚ) ⊔ 24 ⊓ x = x := by
  rw [inf_eq_right.mpr h2, sup_eq_right.mpr h1]


/-- Under the pair contract, zone `A` resolves to nothing, or both
zones resolve to single bands with `A`'s contained in `B`'s. -/
theorem resolveZone_nested (p : Provider) (mtA etA mtB etB : Option ℚ)
    (tA tB r noon lat lng : ℚ)
    (hc : ZonePairContract p mtA etA mtB etB tA tB r noon lat lng) :
    resolveZone p mtA etA tA r noon lat lng = [] ∨
    ∃ m e M E : ℚ, resolveZone p mtA etA tA r noon lat lng = [⟨m, e⟩] ∧
      resolveZone p mtB etB tB r noon lat lng = [⟨M, E⟩] ∧
      0 ≤ M ∧ M ≤ m ∧ e ≤ E ∧ E ≤ 24 := by
  obtain ⟨hth, hrga, hrgb, hrgc, hrgd, hoA, hoB, hmm, hee, hnoonB,
    hriseonly, hsetonly, hnone⟩ := hc
  unfold resolveZone toHourRelative
  rcases hma : mtA with _ | a <;> rcases hea : etA with _ | b
  · -- A has no events
    by_cases h1 : tA < p.altitudeDeg noon lat lng
    · obtain ⟨hmb, heb⟩ := hnone hma hea h1
      rw [hmb, heb]
      simp only [Option.map_none']
      rw [if_pos h1, if_pos (lt_trans hth h1)]
      exact Or.inr ⟨0, 24, 0, 24, rfl, rfl, by norm_num, by norm_num,
        by norm_num, by norm_num⟩
    · left
      simp only [Option.map_none']
      rw [if_neg h1]
  · -- A: evening only
    have hmb : mtB = none := hsetonly ⟨b, hea⟩ hma
    have halt : tB < p.altitudeDeg noon lat lng :=
      hnoonB (Or.inr ⟨b, hea⟩)
    obtain ⟨hb1, hb2⟩ := hrgb b hea
    rw [hmb]
    simp only [Option.map_none', Option.map_some']
    by_cases h1 : tA < p.altitudeDeg noon lat lng
    case neg =>
      left
      rw [if_neg h1]
    case pos =>
      rw [if_pos h1]
      by_cases h2 : 0 < (0:ℚ) ⊔ 24 ⊓ ((b - r) / 3600000)
      case neg =>
        left
        rw [if_neg h2]
      case pos =>
        rw [if_pos h2]
        rcases hen : etB with _ | d <;>
          simp only [Option.map_none', Option.map_some']
        · rw [if_pos halt]
          refine Or.inr ⟨0, _, 0, 24, rfl, rfl, le_refl 0, le_refl 0,
            ?_, le_refl 24⟩
          rw [clamp_id _ hb1 hb2]
          exact hb2
        · obtain ⟨hd1, hd2⟩ := hrgd d hen
          have hbd := hee b d hea hen
          have hd0 : 0 < (0:ℚ) ⊔ 24 ⊓ ((d - r) / 3600000) := by
            rw [clamp_id _ hd1 hd2]
            rw [clamp_id _ hb1 hb2] at h2
            linarith
          rw [if_pos halt, if_pos hd0]
          refine Or.inr ⟨0, _, 0, _, rfl, rfl, le_refl 0, le_refl 0,
            ?_, ?_⟩
          · rw [clamp_id _ hb1 hb2, clamp_id _ hd1 hd2]
            exact hbd
          · rw [clamp_id _ hd1 hd2]
            exact hd2
  · -- A: morning only
    have heb : etB = none := hriseonly ⟨a, hma⟩ hea
    have halt : tB < p.altitudeDeg noon lat lng :=
      hnoonB (Or.inl ⟨a, hma⟩)
    obtain ⟨ha1, ha2⟩ := hrga a hma
    rw [heb]
    simp only [Option.map_none', Option.map_some']
    by_cases h1 : tA < p.altitudeDeg noon lat lng
    case neg =>
      left
      rw [if_neg h1]
    case pos =>
      rw [if_pos h1]
      by_cases h2 : (0:ℚ) ⊔ 24 ⊓ ((a - r) / 3600000) < 24
      case neg =>
        left
        rw [if_neg h2]
      case pos =>
        rw [if_pos h2]
        rcases hnn : mtB with _ | c <;>
          simp only [Option.map_none', Option.map_some']
        · rw [if_pos halt]
          refine Or.inr ⟨_, 24, 0, 24, rfl, rfl, le_refl 0, ?_,
            le_refl 24, le_refl 24⟩
          rw [clamp_id _ ha1 ha2]
          exact ha1
        · obtain ⟨hc1, hc2⟩ := hrgc c hnn
          have hca := hmm a c hma hnn
          have hc24 : (0:ℚ) ⊔ 24 ⊓ ((c - r) / 3600000) < 24 := by
            rw [clamp_id _ hc1 hc2]
            rw [clamp_id _ ha1 ha2] at h2
            linarith
          rw [if_pos halt, if_pos hc24]
          refine Or.inr ⟨_, 24, _, 24, rfl, rfl, ?_, ?_,
            le_refl 24, le_refl 24⟩
          · rw [clamp_id _ hc1 hc2]
            exact hc1
          · rw [clamp_id _ hc1 hc2, clamp_id _ ha1 ha2]
            exact hca
  · -- A: both events
    obtain ⟨ha1, ha2⟩ := hrga a hma
    obtain ⟨hb1, hb2⟩ := hrgb b hea
    have hab := hoA a b hma hea
    have halt : tB < p.altitudeDeg noon lat lng :=
      hnoonB (Or.inl ⟨a, hma⟩)
    have hAband : ((0:ℚ) ⊔ 24 ⊓ ((a - r) / 3600000)) <
        ((0:ℚ) ⊔ 24 ⊓ ((b - r) / 3600000)) := by
      rw [clamp_id _ ha1 ha2, clamp_id _ hb1 hb2]
      exact hab
    rcases hnn : mtB with _ | c <;> rcases hen : etB with _ | d <;>
      simp only [Option.map_none', Option.map_some'] <;>
      rw [if_pos hAband]
    · rw [if_pos halt]
      refine Or.inr ⟨_, _, 0, 24, rfl, rfl, le_refl 0, ?_, ?_,
        le_refl 24⟩
      · rw [clamp_id _ ha1 ha2]
        exact ha1
      · rw [clamp_id _ hb1 hb2]
        exact hb2
    · obtain ⟨hd1, hd2⟩ := hrgd d hen
      have hbd := hee b d hea hen
      have hd0 : 0 < (0:ℚ) ⊔ 24 ⊓ ((d - r) / 3600000) := by
        rw [clamp_id _ hd1 hd2]
        rw [clamp_id _ ha1 ha2, clamp_id _ hb1 hb2] at hAband
        linarith
      rw [if_pos halt, if_pos hd0]
      refine Or.inr ⟨_, _, 0, _, rfl, rfl, le_refl 0, ?_, ?_, ?_⟩
      · rw [clamp_id _ ha1 ha2]
        exact ha1
      · rw [clamp_id _ hb1 hb2, clamp_id _ hd1 hd2]
        exact hbd
      · rw [clamp_id _ hd1 hd2]
        exact hd2
    · obtain ⟨hc1, hc2⟩ := hrgc c hnn
      have hca := hmm a c hma hnn
      have hc24 : (0:ℚ) ⊔ 24 ⊓ ((c - r) / 3600000) < 24 := by
        rw [clamp_id _ hc1 hc2]
        rw [clamp_id _ ha1 ha2, clamp_id _ hb1 hb2] at hAband
        linarith
      rw [if_pos halt, if_pos hc24]
      refine Or.inr ⟨_, _, _, 24, rfl, rfl, ?_, ?_, ?_, le_refl 24⟩
      · rw [clamp_id _ hc1 hc2]
        exact hc1
      · rw [clamp_id _ hc1 hc2, clamp_id _ ha1 ha2]
        exact hca
      · rw [clamp_id _ hb1 hb2]
        exact hb2
    · obtain ⟨hc1, hc2⟩ := hrgc c hnn
      obtain ⟨hd1, hd2⟩ := hrgd d hen
      have hca := hmm a c hma hnn
      have hbd := hee b d hea hen
      have hBband : ((0:ℚ) ⊔ 24 ⊓ ((c - r) / 3600000)) <
          ((0:ℚ) ⊔ 24 ⊓ ((d - r) / 3600000)) := by
        rw [clamp_id _ hc1 hc2, clamp_id _ hd1 hd2]
        rw [clamp_id _ ha1 ha2, clamp_id _ hb1 hb2] at hAband
        linarith
      rw [if_pos hBband]
      refine Or.inr ⟨_, _, _, _, rfl, rfl, ?_, ?_, ?_, ?_⟩
      · rw [clamp_id _ hc1 hc2]
        exact hc1
      · rw [clamp_id _ hc1 hc2, clamp_id _ ha1 ha2]
        exact hca
      · rw [clamp_id _ hb1 hb2, clamp_id _ hd1 hd2]
        exact hbd
      · rw [clamp_id _ hd1 hd2]
        exact hd2


/-- Rotation preserves the nesting produced by `resolveZone_nested`:
membership in the rotated brighter zone implies membership in the
rotated darker zone. -/
theorem zone_nested_rotated (p : Provider) (mtA etA mtB etB : Option ℚ)
    (tA tB r noon lat lng s : ℚ) (hs : -24 ≤ s)
    (hc : ZonePairContract p mtA etA mtB etB tA tB r noon lat lng) :
    ∀ x : ℚ,
      memBands x (rotateBands (resolveZone p mtA etA tA r noon lat lng) s) →
      memBands x (rotateBands (resolveZone p mtB etB tB r noon lat lng) s) := by
  intro x hx
  rcases resolveZone_nested p mtA etA mtB etB tA tB r noon lat lng hc with
    hnil | ⟨m, e, M, E, hA, hB, hM, hMm, heE, hE⟩
  · rw [hnil, rotateBands_nil] at hx
    exact absurd hx (memBands_nil x)
  · rw [hA] at hx
    rw [hB]
    exact rotate_mem_mono M m e E s x hM hMm heE hE hs hx

/-- C2: for every day, latitude, longitude and selected timezone, the
resolved-and-rotated twilight bands are nested: every hour inside a
daylight band lies inside a civil band, every hour inside a civil band
lies inside a nautical band, and every hour inside a nautical band lies
inside an astronomical band.  The hypotheses are the ephemeris pair
contract for the three adjacent threshold pairs of that day's times
(nested thresholds cross in nested order) and the timezone-shift range
`-24 ≤ shift` that any real timezone satisfies. -/
theorem twilight_nesting (p : Provider)
    (utcMidnight lat lng selectedMidnight nm noon s : ℚ)
    (hnm : nm = utcMidnight - lng / 15 * 3600000)
    (hnoon : noon = nm + 12 * 3600000)
    (hshift : s = (nm - selectedMidnight) / 3600000)
    (hs : -24 ≤ s)
    (hc1 : ZonePairContract p (p.getTimes noon lat lng).sunrise
      (p.getTimes noon lat lng).sunset (p.getTimes noon lat lng).dawn
      (p.getTimes noon lat lng).dusk THRESH_SUNRISE THRESH_CIVIL
      nm noon lat lng)
    (hc2 : ZonePairContract p (p.getTimes noon lat lng).dawn
      (p.getTimes noon lat lng).dusk (p.getTimes noon lat lng).nauticalDawn
      (p.getTimes noon lat lng).nauticalDusk THRESH_CIVIL THRESH_NAUTICAL
      nm noon lat lng)
    (hc3 : ZonePairContract p (p.getTimes noon lat lng).nauticalDawn
      (p.getTimes noon lat lng).nauticalDusk
      (p.getTimes noon lat lng).nightEnd (p.getTimes noon lat lng).night
      THRESH_NAUTICAL THRESH_ASTRONOMICAL nm noon lat lng) :
    ∀ x : ℚ,
      (memBands x (twilightForDay p utcMidnight lat lng selectedMidnight).daylight →
        memBands x (twilightForDay p utcMidnight lat lng selectedMidnight).civil) ∧
      (memBands x (twilightForDay p utcMidnight lat lng selectedMidnight).civil →
        memBands x (twilightForDay p utcMidnight lat lng selectedMidnight).nautical) ∧
      (memBands x (twilightForDay p utcMidnight lat lng selectedMidnight).nautical →
        memBands x (twilightForDay p utcMidnight lat lng selectedMidnight).astronomical) := by
  subst hnm
  subst hnoon
  subst hshift
  intro x
  simp only [twilightForDay]
  exact ⟨zone_nested_rotated p _ _ _ _ _ _ _ _ _ _ _ hs hc1 x,
    zone_nested_rotated p _ _ _ _ _ _ _ _ _ _ _ hs hc2 x,
    zone_nested_rotated p _ _ _ _ _ _ _ _ _ _ _ hs hc3 x⟩

/-- Witness for C2 at a concrete nested day: the hour 7 lies in the
daylight band and, via the claim theorem, in the civil band. -/
theorem twilight_nesting_witness :
    memBands 7 (twilightForDay nestedProvider 0 45 0 0).civil :=
  (twilight_nesting nestedProvider 0 45 0 0 0 43200000 0
    (by norm_num) (by norm_num) (by norm_num) (by norm_num)
    (by unfold ZonePairContract
        norm_num [nestedProvider, THRESH_SUNRISE, THRESH_CIVIL]
        exact And.intro (fun h => nomatch h) (And.intro (fun h => nomatch h)
          (fun h => nomatch h)))
    (by unfold ZonePairContract
        norm_num [nestedProvider, THRESH_CIVIL, THRESH_NAUTICAL]
        exact And.intro (fun h => nomatch h) (And.intro (fun h => nomatch h)
          (fun h => nomatch h)))
    (by unfold ZonePairContract
        norm_num [nestedProvider, THRESH_NAUTICAL, THRESH_ASTRONOMICAL]
        exact And.intro (fun h => nomatch h) (And.intro (fun h => nomatch h)
          (fun h => nomatch h)))
    7).1
  (by
    refine ⟨⟨6, 18⟩, ?_, by norm_num, by norm_num⟩
    norm_num [twilightForDay, nestedProvider, resolveZone, toHourRelative,
      rotateBands, THRESH_SUNRISE, List.mem_singleton])

end Daylight
